import Mathlib

/-
Verification of the OCED object-centric event log engine (src/OCED.py).

The embedding translates the Python source into pure Lean definitions:

* Python dicts become insertion-ordered association lists with the exact
  dict-assignment semantics (update in place when the key is present,
  append at the end otherwise).
* Python sets (the per-event involved-ids) become lists used only through
  membership; add appends when absent.
* pandas DataFrames (append-only history tables) become lists of row
  structures; pd.concat with a one-row frame is list append.
* Exceptions become an Except monad.  The error kinds are distinguished
  because the source mixes them: every qualifier precondition failure
  interpolates self.__name__ into the message f-string, and instances of
  the qualifier classes have no __name__ attribute (the attribute lives on
  the class object via the metaclass and is not found by instance lookup,
  and name mangling does not apply to identifiers with two trailing
  underscores), so evaluating the message raises AttributeError before the
  ValueError is constructed.  Plain-string messages (the timestamp check)
  do raise ValueError, and unguarded dict subscripts raise KeyError.
* On an error path the Python code may already have mutated the structure
  it was passed; those partial writes are unobservable to callers of
  insert_event (validation mutates a deep copy that is dropped, and the
  commit pass is only reached when validation succeeded), so the Except
  encoding drops them.
-/

namespace OCEDSpec

/-- Python exception kinds that can escape the event machinery. -/
inductive PyError where
  | valueError
  | attributeError
  | keyError
deriving DecidableEq, Repr

/-! ### Insertion-ordered dictionaries as association lists -/

/-- Lookup in an association list, first match wins (Python dict lookup;
the construction below never creates duplicate keys). -/
def alookup {κ α : Type} [DecidableEq κ] (l : List (κ × α)) (k : κ) : Option α :=
  match l with
  | [] => none
  | (k2, v) :: t => if k2 = k then some v else alookup t k

/-- Overwrite every entry holding key k (used only when k is present). -/
def aset {κ α : Type} [DecidableEq κ] (l : List (κ × α)) (k : κ) (v : α) : List (κ × α) :=
  match l with
  | [] => []
  | (k2, v2) :: t => if k2 = k then (k, v) :: aset t k v else (k2, v2) :: aset t k v

/-- Python dict assignment d[k] = v: overwrite when present, append when absent. -/
def dset {κ α : Type} [DecidableEq κ] (l : List (κ × α)) (k : κ) (v : α) : List (κ × α) :=
  if (alookup l k).isSome then aset l k v else l ++ [(k, v)]

/-- In-place mutation of the record stored at a key that is present
(Python d[k].field = ...); absent keys are untouched, a branch the
translated code never reaches because every use is behind a presence check. -/
def dmodify {κ α : Type} [DecidableEq κ] (l : List (κ × α)) (k : κ) (f : α → α) :
    List (κ × α) :=
  match l with
  | [] => []
  | (k2, v2) :: t => if k2 = k then (k2, f v2) :: dmodify t k f else (k2, v2) :: dmodify t k f

/-- Python set.add: the involved-ids sets are only ever read through
membership, so a duplicate-free append models them. -/
def addId (s : List String) (id : String) : List String :=
  if id ∈ s then s else s ++ [id]

/-! ### String comparison

Python compares strings lexicographically by code point, and the source
compares normalized timestamp strings this way (max_time >= event_time).
The comparison is spelled out on the character lists so that it reduces
inside the kernel. -/

/-- Three-way lexicographic comparison of character lists by code point. -/
def listCmp : List Char → List Char → Ordering
  | [], [] => .eq
  | [], _ :: _ => .lt
  | _ :: _, [] => .gt
  | c :: cs, d :: ds =>
    if c.toNat < d.toNat then .lt
    else if d.toNat < c.toNat then .gt
    else listCmp cs ds

/-- Three-way comparison of strings, the order Python uses. -/
def strCmp (a b : String) : Ordering :=
  listCmp a.data b.data

/-- Python a <= b on strings. -/
def strLe (a b : String) : Bool :=
  match strCmp a b with
  | .gt => false
  | _ => true

/-- Python a < b on strings. -/
def strLt (a b : String) : Bool :=
  match strCmp a b with
  | .lt => true
  | _ => false

/-! ### The current-state store (OCED.__current_state) -/

/-- Record stored at current_state.object, one per object id. -/
structure ObjectInfo where
  type : String
  existency : Bool
  object_relation_ids : List String
  object_attribute_value_ids : List String
deriving DecidableEq, Repr

/-- Record stored at current_state.object_relation, one per relation id. -/
structure RelationInfo where
  type : String
  existency : Bool
  from_object_id : String
  to_object_id : String
deriving DecidableEq, Repr

/-- Record stored at current_state.object_attribute_value, one per value id. -/
structure AttrValueInfo where
  name : String
  value : String
  existency : Bool
  object_id : String
deriving DecidableEq, Repr

/-- The three keyed maps of the materialized current state. -/
structure CurrentState where
  object : List (String × ObjectInfo)
  object_relation : List (String × RelationInfo)
  object_attribute_value : List (String × AttrValueInfo)
deriving DecidableEq, Repr

/-- The per-event three-way involved-ids set. -/
structure InvolvedIds where
  object : List String
  object_relation : List String
  object_attribute_value : List String
deriving DecidableEq, Repr

/-- Fresh empty involved-ids, rebuilt for every pass over an event. -/
def emptyInvolved : InvolvedIds := ⟨[], [], []⟩

/-! ### Qualifiers -/

/-- The closed set of twelve qualifier variants, carrying the constructor
arguments of the corresponding Python classes.  The Python constructors
only check argument types (and from/to distinctness), which the Lean types
subsume. -/
inductive Qualifier where
  | create_object (object_id object_type : String)
  | create_object_relation
      (object_relation_id from_object_id to_object_id object_relation_type : String)
  | create_object_attribute_value
      (object_attribute_value_id object_id object_attribute_name object_attribute_value : String)
  | delete_object (object_id : String)
  | delete_object_relation (object_relation_id : String)
  | delete_object_attribute_value (object_attribute_value_id : String)
  | modify_object (object_id new_object_type : String)
  | modify_object_relation (object_relation_id new_object_relation_type : String)
  | modify_object_attribute_value
      (object_attribute_value_id new_object_attribute_value : String)
  | involve_object (object_id : String)
  | involve_object_relation (object_relation_id : String)
  | involve_object_attribute_value (object_attribute_value_id : String)
deriving DecidableEq, Repr

/-- The qualifier_type label passed to super().__init__ by each class. -/
def Qualifier.qualifier_type : Qualifier → String
  | .create_object .. => "CREATE"
  | .create_object_relation .. => "CREATE"
  | .create_object_attribute_value .. => "CREATE"
  | .delete_object .. => "DELETE"
  | .delete_object_relation .. => "DELETE"
  | .delete_object_attribute_value .. => "DELETE"
  | .modify_object .. => "MODIFY"
  | .modify_object_relation .. => "MODIFY"
  | .modify_object_attribute_value .. => "MODIFY"
  | .involve_object .. => "INVOLVE"
  | .involve_object_relation .. => "INVOLVE"
  | .involve_object_attribute_value .. => "INVOLVE"

/-- True for the CREATE, DELETE and MODIFY variants, false for INVOLVE. -/
def Qualifier.isMutation (q : Qualifier) : Bool :=
  q.qualifier_type ≠ "INVOLVE"

/-- Clearing the cascade of relation records reached through a back-reference
list: delete_object.__update_current_state lines 1167-1171.  Reading a
dangling id raises KeyError; records already dead are skipped; live records
get existency cleared and their id added to the involved set. -/
def cascadeRelations (rids : List String) (rels : List (String × RelationInfo))
    (inv : List String) : Except PyError (List (String × RelationInfo) × List String) :=
  match rids with
  | [] => .ok (rels, inv)
  | rid :: rest =>
    match alookup rels rid with
    | none => .error .keyError
    | some r =>
      if r.existency = false then cascadeRelations rest rels inv
      else cascadeRelations rest (aset rels rid { r with existency := false }) (addId inv rid)

/-- Cascade over the attribute-value back-reference list:
delete_object.__update_current_state lines 1172-1176. -/
def cascadeAttrValues (vids : List String) (vals : List (String × AttrValueInfo))
    (inv : List String) : Except PyError (List (String × AttrValueInfo) × List String) :=
  match vids with
  | [] => .ok (vals, inv)
  | vid :: rest =>
    match alookup vals vid with
    | none => .error .keyError
    | some v =>
      if v.existency = false then cascadeAttrValues rest vals inv
      else cascadeAttrValues rest (aset vals vid { v with existency := false }) (addId inv vid)

/-- Translation of the twelve __update_current_state methods, dispatching
like Event.__precondition.  The qualifier_index argument of the source only
feeds error-message text and is dropped.  Precondition failures are
attributeError (see header note on self.__name__); the unguarded owner
subscript of create_object_attribute_value (line 955) is keyError. -/
def update_current_state (q : Qualifier) (cs : CurrentState) (inv : InvolvedIds) :
    Except PyError (CurrentState × InvolvedIds) :=
  match q with
  | .create_object object_id object_type =>
    if (alookup cs.object object_id).isSome then .error .attributeError
    else .ok
      ({ cs with object := dset cs.object object_id ⟨object_type, true, [], []⟩ },
       { inv with object := addId inv.object object_id })
  | .create_object_relation rid f t ty =>
    if (alookup cs.object_relation rid).isSome then .error .attributeError
    else match alookup cs.object t with
    | none => .error .attributeError
    | some ot =>
      if ot.existency = false then .error .attributeError
      else match alookup cs.object f with
      | none => .error .attributeError
      | some ofr =>
        if ofr.existency = false then .error .attributeError
        else
          let addRef := fun (o : ObjectInfo) =>
            { o with object_relation_ids := o.object_relation_ids ++ [rid] }
          let objs2 := dmodify (dmodify cs.object f addRef) t addRef
          let rels2 := dset cs.object_relation rid ⟨ty, true, f, t⟩
          .ok
            ({ cs with object_relation := rels2, object := objs2 },
             { inv with object_relation := addId inv.object_relation rid })
  | .create_object_attribute_value vid oid nm vl =>
    if (alookup cs.object_attribute_value vid).isSome then .error .attributeError
    else match alookup cs.object oid with
    | none => .error .keyError
    | some _ =>
      let addRef := fun (o : ObjectInfo) =>
        { o with object_attribute_value_ids := o.object_attribute_value_ids ++ [vid] }
      let vals2 := dset cs.object_attribute_value vid ⟨nm, vl, true, oid⟩
      .ok
        ({ cs with object_attribute_value := vals2, object := dmodify cs.object oid addRef },
         { inv with object_attribute_value := addId inv.object_attribute_value vid })
  | .delete_object oid =>
    match alookup cs.object oid with
    | none => .error .attributeError
    | some o =>
      if o.existency = false then .error .attributeError
      else
        match cascadeRelations o.object_relation_ids cs.object_relation inv.object_relation with
        | .error e => .error e
        | .ok (rels2, invRel2) =>
          match cascadeAttrValues o.object_attribute_value_ids cs.object_attribute_value
              inv.object_attribute_value with
          | .error e => .error e
          | .ok (vals2, invVal2) =>
            .ok
              ({ object := dmodify cs.object oid (fun x => { x with existency := false }),
                 object_relation := rels2,
                 object_attribute_value := vals2 },
               { object := addId inv.object oid,
                 object_relation := invRel2,
                 object_attribute_value := invVal2 })
  | .delete_object_relation rid =>
    match alookup cs.object_relation rid with
    | none => .error .attributeError
    | some r =>
      if r.existency = false then .error .attributeError
      else
        let rels2 := dmodify cs.object_relation rid (fun x => { x with existency := false })
        .ok
          ({ cs with object_relation := rels2 },
           { inv with object_relation := addId inv.object_relation rid })
  | .delete_object_attribute_value vid =>
    match alookup cs.object_attribute_value vid with
    | none => .error .attributeError
    | some v =>
      if v.existency = false then .error .attributeError
      else
        let vals2 := dmodify cs.object_attribute_value vid (fun x => { x with existency := false })
        .ok
          ({ cs with object_attribute_value := vals2 },
           { inv with object_attribute_value := addId inv.object_attribute_value vid })
  | .modify_object oid newty =>
    match alookup cs.object oid with
    | none => .error .attributeError
    | some o =>
      if o.existency = false then .error .attributeError
      else if o.type = newty then .error .attributeError
      else
        let objs2 := dmodify cs.object oid (fun x => { x with type := newty })
        .ok
          ({ cs with object := objs2 },
           { inv with object := addId inv.object oid })
  | .modify_object_relation rid newty =>
    match alookup cs.object_relation rid with
    | none => .error .attributeError
    | some r =>
      if r.existency = false then .error .attributeError
      else if r.type = newty then .error .attributeError
      else
        let rels2 := dmodify cs.object_relation rid (fun x => { x with type := newty })
        .ok
          ({ cs with object_relation := rels2 },
           { inv with object_relation := addId inv.object_relation rid })
  | .modify_object_attribute_value vid newvl =>
    match alookup cs.object_attribute_value vid with
    | none => .error .attributeError
    | some v =>
      if v.existency = false then .error .attributeError
      else if v.value = newvl then .error .attributeError
      else
        let vals2 := dmodify cs.object_attribute_value vid (fun x => { x with value := newvl })
        .ok
          ({ cs with object_attribute_value := vals2 },
           { inv with object_attribute_value := addId inv.object_attribute_value vid })
  | .involve_object oid =>
    match alookup cs.object oid with
    | none => .error .attributeError
    | some o =>
      if o.existency = false then .error .attributeError
      else if oid ∈ inv.object then .error .attributeError
      else .ok (cs, { inv with object := addId inv.object oid })
  | .involve_object_relation rid =>
    match alookup cs.object_relation rid with
    | none => .error .attributeError
    | some r =>
      if r.existency = false then .error .attributeError
      else if rid ∈ inv.object_relation then .error .attributeError
      else .ok (cs, { inv with object_relation := addId inv.object_relation rid })
  | .involve_object_attribute_value vid =>
    match alookup cs.object_attribute_value vid with
    | none => .error .attributeError
    | some v =>
      if v.existency = false then .error .attributeError
      else if vid ∈ inv.object_attribute_value then .error .attributeError
      else .ok (cs, { inv with object_attribute_value := addId inv.object_attribute_value vid })

/-! ### History tables and the model aggregate (class OCED) -/

/-- Row of the event table: | event_id | event_type | event_time |. -/
structure EventRow where
  event_id : Nat
  event_type : String
  event_time : String
deriving DecidableEq, Repr

/-- Row of the event_attribute_value table. -/
structure EventAttrRow where
  event_id : Nat
  event_attribute_name : String
  event_attribute_value : String
deriving DecidableEq, Repr

/-- Row of the object history table. -/
structure ObjectRow where
  object_id : String
  object_type : String
  object_existency : Bool
deriving DecidableEq, Repr

/-- Row of the object_relation history table. -/
structure RelationRow where
  object_relation_id : String
  from_object_id : String
  to_object_id : String
  object_relation_type : String
  object_relation_existency : Bool
deriving DecidableEq, Repr

/-- Row of the object_attribute_value history table. -/
structure AttrValueRow where
  object_attribute_value_id : String
  object_id : String
  object_attribute_name : String
  object_attribute_value : String
  object_attribute_value_existency : Bool
deriving DecidableEq, Repr

/-- Row of the three junction tables; target_id is the object id, the
relation id or the attribute-value id depending on the table. -/
structure JunctionRow where
  event_id : Nat
  target_id : String
  qualifier_type : String
  qualifier_index : Nat
deriving DecidableEq, Repr

/-- One entry of the per-event mutation log, the result of a __log method. -/
structure LogEntry where
  qualifier : String
  arguments : List (String × String)
deriving DecidableEq, Repr

/-- The model aggregate: all fields initialized by OCED.__init__. -/
structure OCED where
  event : List EventRow
  event_type : List String
  event_time : List String
  event_attribute_name : List String
  event_attribute_value : List EventAttrRow
  object : List ObjectRow
  object_type : List String
  object_attribute_name : List String
  object_attribute_value : List AttrValueRow
  object_relation : List RelationRow
  object_relation_type : List String
  event_x_object : List JunctionRow
  event_x_object_attribute_value : List JunctionRow
  event_x_object_relation : List JunctionRow
  log : List (Nat × List LogEntry)
  current_state : CurrentState
  event_counter : Nat
deriving DecidableEq, Repr

/-- A fresh model: every table empty, counter zero (OCED.__init__). -/
def freshOCED : OCED :=
  { event := [], event_type := [], event_time := [], event_attribute_name := [],
    event_attribute_value := [], object := [], object_type := [],
    object_attribute_name := [], object_attribute_value := [], object_relation := [],
    object_relation_type := [], event_x_object := [],
    event_x_object_attribute_value := [], event_x_object_relation := [],
    log := [], current_state := ⟨[], [], []⟩, event_counter := 0 }

/-- Append a value to a lookup table only when it is not already present
(the membership-guarded pd.concat pattern of the source). -/
def insertUnique (l : List String) (v : String) : List String :=
  if v ∈ l then l else l ++ [v]

/-- Rows recorded by delete_object.__update_tables for the relations in the
back-reference list of the object being deleted (lines 1222-1241): dangling
ids raise KeyError, dead relations are skipped, live ones get one history
row with existency False and one junction row. -/
def deleteRelRows (rids : List String) (m : OCED) (k : Nat) : Except PyError OCED :=
  match rids with
  | [] => .ok m
  | rid :: rest =>
    match alookup m.current_state.object_relation rid with
    | none => .error .keyError
    | some r =>
      if r.existency = false then deleteRelRows rest m k
      else
        let row : RelationRow := ⟨rid, r.from_object_id, r.to_object_id, r.type, false⟩
        let jrow : JunctionRow := ⟨m.event_counter, rid, "DELETE", k⟩
        deleteRelRows rest
          { m with object_relation := m.object_relation ++ [row],
                   event_x_object_relation := m.event_x_object_relation ++ [jrow] } k

/-- Rows recorded by delete_object.__update_tables for the attribute values
in the back-reference list (lines 1242-1262). -/
def deleteAttrRows (vids : List String) (m : OCED) (k : Nat) : Except PyError OCED :=
  match vids with
  | [] => .ok m
  | vid :: rest =>
    match alookup m.current_state.object_attribute_value vid with
    | none => .error .keyError
    | some v =>
      if v.existency = false then deleteAttrRows rest m k
      else
        let row : AttrValueRow := ⟨vid, v.object_id, v.name, v.value, false⟩
        let jrow : JunctionRow := ⟨m.event_counter, vid, "DELETE", k⟩
        deleteAttrRows rest
          { m with object_attribute_value := m.object_attribute_value ++ [row],
                   event_x_object_attribute_value := m.event_x_object_attribute_value ++ [jrow] } k

/-- Translation of the twelve __update_tables methods.  They run during the
commit pass before the corresponding real-state update, read only the model
(tables plus current_state) and never write current_state.  Reads of the
current state through unguarded dict subscripts are keyError on absent
keys. -/
def update_tables (q : Qualifier) (m : OCED) (k : Nat) : Except PyError OCED :=
  match q with
  | .create_object oid ty =>
    .ok { m with
      object := m.object ++ [⟨oid, ty, true⟩],
      object_type := insertUnique m.object_type ty,
      event_x_object := m.event_x_object ++ [⟨m.event_counter, oid, "CREATE", k⟩] }
  | .create_object_relation rid f t ty =>
    .ok { m with
      object_relation := m.object_relation ++ [⟨rid, f, t, ty, true⟩],
      object_relation_type := insertUnique m.object_relation_type ty,
      event_x_object_relation := m.event_x_object_relation ++ [⟨m.event_counter, rid, "CREATE", k⟩] }
  | .create_object_attribute_value vid oid nm vl =>
    .ok { m with
      object_attribute_value := m.object_attribute_value ++ [⟨vid, oid, nm, vl, true⟩],
      object_attribute_name := insertUnique m.object_attribute_name nm,
      event_x_object_attribute_value :=
        m.event_x_object_attribute_value ++ [⟨m.event_counter, vid, "CREATE", k⟩] }
  | .delete_object oid =>
    match alookup m.current_state.object oid with
    | none => .error .keyError
    | some o =>
      let m1 := { m with
        object := m.object ++ [⟨oid, o.type, false⟩],
        event_x_object := m.event_x_object ++ [⟨m.event_counter, oid, "DELETE", k⟩] }
      match deleteRelRows o.object_relation_ids m1 k with
      | .error e => .error e
      | .ok m2 => deleteAttrRows o.object_attribute_value_ids m2 k
  | .delete_object_relation rid =>
    match alookup m.current_state.object_relation rid with
    | none => .error .keyError
    | some r =>
      .ok { m with
        object_relation :=
          m.object_relation ++ [⟨rid, r.from_object_id, r.to_object_id, r.type, false⟩],
        event_x_object_relation :=
          m.event_x_object_relation ++ [⟨m.event_counter, rid, "DELETE", k⟩] }
  | .delete_object_attribute_value vid =>
    match alookup m.current_state.object_attribute_value vid with
    | none => .error .keyError
    | some v =>
      .ok { m with
        object_attribute_value :=
          m.object_attribute_value ++ [⟨vid, v.object_id, v.name, v.value, false⟩],
        event_x_object_attribute_value :=
          m.event_x_object_attribute_value ++ [⟨m.event_counter, vid, "DELETE", k⟩] }
  | .modify_object oid newty =>
    .ok { m with
      object := m.object ++ [⟨oid, newty, true⟩],
      event_x_object := m.event_x_object ++ [⟨m.event_counter, oid, "MODIFY", k⟩] }
  | .modify_object_relation rid newty =>
    match alookup m.current_state.object_relation rid with
    | none => .error .keyError
    | some r =>
      .ok { m with
        object_relation :=
          m.object_relation ++ [⟨rid, r.from_object_id, r.to_object_id, newty, true⟩],
        event_x_object_relation :=
          m.event_x_object_relation ++ [⟨m.event_counter, rid, "MODIFY", k⟩] }
  | .modify_object_attribute_value vid newvl =>
    match alookup m.current_state.object_attribute_value vid with
    | none => .error .keyError
    | some v =>
      .ok { m with
        object_attribute_value :=
          m.object_attribute_value ++ [⟨vid, v.object_id, v.name, newvl, true⟩],
        event_x_object_attribute_value :=
          m.event_x_object_attribute_value ++ [⟨m.event_counter, vid, "MODIFY", k⟩] }
  | .involve_object oid =>
    .ok { m with
      event_x_object := m.event_x_object ++ [⟨m.event_counter, oid, "INVOLVE", k⟩] }
  | .involve_object_relation rid =>
    .ok { m with
      event_x_object_relation :=
        m.event_x_object_relation ++ [⟨m.event_counter, rid, "INVOLVE", k⟩] }
  | .involve_object_attribute_value vid =>
    .ok { m with
      event_x_object_attribute_value :=
        m.event_x_object_attribute_value ++ [⟨m.event_counter, vid, "INVOLVE", k⟩] }

/-- Structured result of the twelve __log methods. -/
def qualifierLog (q : Qualifier) : LogEntry :=
  match q with
  | .create_object oid ty =>
    ⟨"create_object", [("object_id", oid), ("object_type", ty)]⟩
  | .create_object_relation rid f t ty =>
    ⟨"create_object_relation",
     [("object_relation_id", rid), ("from_object_id", f), ("to_object_id", t),
      ("object_relation_type", ty)]⟩
  | .create_object_attribute_value vid oid nm vl =>
    ⟨"create_object_attribute_value",
     [("object_attribute_value_id", vid), ("object_id", oid),
      ("object_attribute_name", nm), ("object_attribute_value", vl)]⟩
  | .delete_object oid => ⟨"delete_object", [("object_id", oid)]⟩
  | .delete_object_relation rid =>
    ⟨"delete_object_relation", [("object_relation_id", rid)]⟩
  | .delete_object_attribute_value vid =>
    ⟨"delete_object_attribute_value", [("object_attribute_value_id", vid)]⟩
  | .modify_object oid newty =>
    ⟨"modify_object", [("object_id", oid), ("new_object_type", newty)]⟩
  | .modify_object_relation rid newty =>
    ⟨"modify_object_relation",
     [("object_relation_id", rid), ("new_object_relation_type", newty)]⟩
  | .modify_object_attribute_value vid newvl =>
    ⟨"modify_object_attribute_value",
     [("object_attribute_value_id", vid), ("new_object_attribute_value", newvl)]⟩
  | .involve_object oid => ⟨"involve_object", [("object_id", oid)]⟩
  | .involve_object_relation rid =>
    ⟨"involve_object_relation", [("object_relation_id", rid)]⟩
  | .involve_object_attribute_value vid =>
    ⟨"involve_object_attribute_value", [("object_attribute_value_id", vid)]⟩

/-! ### Events and the two-phase protocol -/

/-- An event value after construction by Event.__init__.  The event_time
field stands for the already normalized ISO-8601 string the constructor
computes; string comparison on such values is the comparison the source
performs.  The attributes field models a Python dict, see Event.WF. -/
structure Event where
  event_time : String
  event_type : String
  qualifiers : List Qualifier
  event_attributes : List (String × String)
deriving DecidableEq, Repr

/-- The attribute list stands for a Python dict, whose keys are distinct by
construction; no further constraint of Event.__init__ survives typing. -/
def Event.WF (e : Event) : Prop :=
  (e.event_attributes.map Prod.fst).Nodup

instance (e : Event) : Decidable e.WF := by
  unfold Event.WF
  infer_instance

/-- Validation dry run over the qualifier list in order, threading the
scratch state and the involved-ids set (Event.__precondition lines
3240-3266, with the commit pass reusing the same iteration shape). -/
def applyQualifiers (qs : List Qualifier) (cs : CurrentState) (inv : InvolvedIds) :
    Except PyError (CurrentState × InvolvedIds) :=
  match qs with
  | [] => .ok (cs, inv)
  | q :: rest =>
    match update_current_state q cs inv with
    | .error e => .error e
    | .ok (cs2, inv2) => applyQualifiers rest cs2 inv2

/-- Maximum of a string column, as pandas computes it on the event_time
table: None on an empty column, otherwise the lexicographically largest
entry. -/
def colMax (l : List String) : Option String :=
  match l with
  | [] => none
  | t :: ts => some (ts.foldl (fun a b => if strLe a b then b else a) t)

/-- Event.__precondition: the timestamp check against the maximum committed
time, then the dry run of every qualifier against a deep copy of the
current state with a fresh involved-ids set.  In the value semantics of the
embedding the deep copy is the value itself; all writes of the dry run stay
inside this function. -/
def precondition (m : OCED) (e : Event) : Except PyError Unit :=
  match colMax m.event_time with
  | some mx =>
    if strLe e.event_time mx then .error .valueError
    else
      match applyQualifiers e.qualifiers m.current_state emptyInvolved with
      | .error err => .error err
      | .ok _ => .ok ()
  | none =>
    match applyQualifiers e.qualifiers m.current_state emptyInvolved with
    | .error err => .error err
    | .ok _ => .ok ()

/-- Commit loop of Event.__execute (lines 3317-3355): for each qualifier in
order, first __update_tables against the model, then
__update_current_state against the real current state, threading a fresh
involved-ids set. -/
def execQualifiers (qs : List Qualifier) (k : Nat) (m : OCED) (inv : InvolvedIds) :
    Except PyError OCED :=
  match qs with
  | [] => .ok m
  | q :: rest =>
    match update_tables q m k with
    | .error e => .error e
    | .ok m1 =>
      match update_current_state q m1.current_state inv with
      | .error e => .error e
      | .ok (cs2, inv2) => execQualifiers rest (k + 1) { m1 with current_state := cs2 } inv2

/-- Event.__execute: append the event row (tagged with the current counter),
the guarded event_type row, the event_time row, the new attribute names
(filtered against a snapshot taken before the batch) and the attribute
value rows, then run the commit loop from index 0. -/
def executeEvent (m : OCED) (e : Event) : Except PyError OCED :=
  let names := e.event_attributes.map Prod.fst
  let newNames := names.filter (fun n => n ∉ m.event_attribute_name)
  let attrRows := e.event_attributes.map
    (fun p => (⟨m.event_counter, p.1, p.2⟩ : EventAttrRow))
  let m1 := { m with
    event := m.event ++ [⟨m.event_counter, e.event_type, e.event_time⟩],
    event_type := insertUnique m.event_type e.event_type,
    event_time := m.event_time ++ [e.event_time],
    event_attribute_name := m.event_attribute_name ++ newNames,
    event_attribute_value := m.event_attribute_value ++ attrRows }
  execQualifiers e.qualifiers 0 m1 emptyInvolved

/-- Event.__log: store the ordered describe list under the current counter
(a fresh key, via dict assignment). -/
def logEvent (m : OCED) (e : Event) : OCED :=
  { m with log := dset m.log m.event_counter (e.qualifiers.map qualifierLog) }

/-- OCED.insert_event: precondition (timestamp check plus validation dry
run), then commit, then log, then counter increment.  An exception escaping
the precondition leaves every field of the model untouched: up to that
point the only structures written are the deep copy and the per-call
involved-ids, so the caller observes the unchanged model. -/
def insert_event (m : OCED) (e : Event) : Except PyError OCED :=
  match precondition m e with
  | .error err => .error err
  | .ok _ =>
    match executeEvent m e with
    | .error err => .error err
    | .ok m2 =>
      let m3 := logEvent m2 e
      .ok { m3 with event_counter := m3.event_counter + 1 }

/-- The model a caller observes after an insert_event call: the committed
model on success, the unchanged model when the call raised. -/
def processEvent (m : OCED) (e : Event) : OCED :=
  match insert_event m e with
  | .ok m2 => m2
  | .error _ => m

/-- Folding a whole call sequence, keeping the model across rejected calls. -/
def insertList (m : OCED) (es : List Event) : OCED :=
  es.foldl processEvent m

/-- Number of insert_event calls of a sequence that succeed. -/
def countSuccess (m : OCED) (es : List Event) : Nat :=
  match es with
  | [] => 0
  | e :: rest =>
    match insert_event m e with
    | .ok m2 => countSuccess m2 rest + 1
    | .error _ => countSuccess m rest

/-- States reachable from a fresh model by any sequence of insert_event
calls built from well-formed events (rejected calls leave the model
unchanged, so only the committed ones matter). -/
def Reachable (m : OCED) : Prop :=
  ∃ es : List Event, (∀ e ∈ es, e.WF) ∧ m = insertList freshOCED es

/-! ### Auxiliary definitions: invariants, frame relations and concrete
instances used in the development below -/

/-- Concrete state used to witness delete_object_cascade_exact: one live
object owning one live relation and one live attribute value. -/
def csW7 : CurrentState :=
  ⟨[("o", ⟨"T", true, ["r"], ["v"]⟩), ("p", ⟨"T", true, ["r"], []⟩)],
   [("r", ⟨"R", true, "o", "p"⟩)],
   [("v", ⟨"n", "x", true, "o"⟩)]⟩

/-- Concrete rejected event: its single qualifier deletes an unknown object. -/
def eW1 : Event := ⟨"2024-01-01T00:00:01", "ev", [.delete_object "ghost"], []⟩

/-- Concrete state used to witness create_attr_value_charact: the owner
exists but is soft-deleted, the value id is unused. -/
def csW5 : CurrentState := ⟨[("o", ⟨"T", false, [], []⟩)], [], []⟩

/-- Concrete working state and involved set for the C9 witness: object o is
live but already involved. -/
def csW9 : CurrentState := ⟨[("o", ⟨"T", true, [], []⟩)], [], []⟩

def invW9 : InvolvedIds := ⟨["o"], [], []⟩

/-- Relation between a model and the model after qualifier-level table
updates: the event-level tables, the log and the counter are untouched, the
lookup tables only grow through guarded inserts, and every new junction row
is tagged with the current event counter. -/
structure StepFrame (m m1 : OCED) : Prop where
  event_eq : m1.event = m.event
  event_time_eq : m1.event_time = m.event_time
  event_type_eq : m1.event_type = m.event_type
  event_attr_name_eq : m1.event_attribute_name = m.event_attribute_name
  event_attr_value_eq : m1.event_attribute_value = m.event_attribute_value
  log_eq : m1.log = m.log
  counter_eq : m1.event_counter = m.event_counter
  object_type_nodup : m.object_type.Nodup → m1.object_type.Nodup
  relation_type_nodup : m.object_relation_type.Nodup → m1.object_relation_type.Nodup
  attr_name_nodup : m.object_attribute_name.Nodup → m1.object_attribute_name.Nodup
  exo : ∀ r ∈ m1.event_x_object, r ∈ m.event_x_object ∨ r.event_id = m.event_counter
  exr : ∀ r ∈ m1.event_x_object_relation,
    r ∈ m.event_x_object_relation ∨ r.event_id = m.event_counter
  exv : ∀ r ∈ m1.event_x_object_attribute_value,
    r ∈ m.event_x_object_attribute_value ∨ r.event_id = m.event_counter

/-- Concrete validated event for the C2 witness. -/
def eW2 : Event := ⟨"2024-01-01T00:00:01", "ev", [.create_object "o" "T"], []⟩

/-- The state the validation dry run of eW2 computes on a fresh model. -/
def csW2 : CurrentState := ⟨[("o", ⟨"T", true, [], []⟩)], [], []⟩

/-- Inductive invariant tying the event_time table to the event table and
recording strict sortedness in the code-point order Python compares with. -/
def TimeInv (m : OCED) : Prop :=
  m.event_time = m.event.map EventRow.event_time ∧
  List.Pairwise (fun a b => strLt a b = true) m.event_time

/-- Model with one committed event, used to witness monotonic_time. -/
def eW6a : Event := ⟨"2024-01-01T00:00:02", "ev", [.create_object "o" "T"], []⟩

def mW6 : OCED := insertList freshOCED [eW6a]

/-- An event at a strictly earlier timestamp than the committed one. -/
def eW6b : Event := ⟨"2024-01-01T00:00:01", "ev", [], []⟩

/-- Inductive invariant: event-table ids are exactly 0..counter-1 in order,
and every junction row references a committed event id. -/
def CounterInv (m : OCED) : Prop :=
  m.event.map EventRow.event_id = List.range m.event_counter ∧
  (∀ r ∈ m.event_x_object, r.event_id < m.event_counter) ∧
  (∀ r ∈ m.event_x_object_relation, r.event_id < m.event_counter) ∧
  (∀ r ∈ m.event_x_object_attribute_value, r.event_id < m.event_counter)

/-- Inductive invariant: each of the five lookup tables is duplicate-free. -/
def LookupInv (m : OCED) : Prop :=
  m.event_type.Nodup ∧ m.event_attribute_name.Nodup ∧ m.object_type.Nodup ∧
  m.object_relation_type.Nodup ∧ m.object_attribute_name.Nodup

/-- Inductive invariant on the current state: every relation record points
to endpoint objects that are present in the store, is listed in both
endpoint back-reference lists, and is live only when its endpoints are
live.  The attribute-value analogue of the liveness clause is false on the
code, see ownership_existency_cex. -/
def RelInv (cs : CurrentState) : Prop :=
  ∀ rid r, alookup cs.object_relation rid = some r →
    (∃ ofr, alookup cs.object r.from_object_id = some ofr ∧
      rid ∈ ofr.object_relation_ids ∧ (r.existency = true → ofr.existency = true)) ∧
    (∃ ot, alookup cs.object r.to_object_id = some ot ∧
      rid ∈ ot.object_relation_ids ∧ (r.existency = true → ot.existency = true))

/-- Events reaching a state that refutes the ownership-existency claim for
attribute values: create an object, delete it, then create an attribute
value on the soft-deleted owner. -/
def eW4a : Event := ⟨"2024-01-01T00:00:01", "ev", [.create_object "o" "T"], []⟩

def eW4b : Event := ⟨"2024-01-01T00:00:02", "ev", [.delete_object "o"], []⟩

def eW4c : Event :=
  ⟨"2024-01-01T00:00:03", "ev", [.create_object_attribute_value "v" "o" "n" "x"], []⟩

def mW4 : OCED := insertList freshOCED [eW4a, eW4b, eW4c]

/-- Events reaching a state with one live relation, used to witness
relation_ownership_existency. -/
def eW4r1 : Event := ⟨"2024-01-01T00:00:01", "ev", [.create_object "o1" "T"], []⟩

def eW4r2 : Event := ⟨"2024-01-01T00:00:02", "ev", [.create_object "o2" "T"], []⟩

def eW4r3 : Event :=
  ⟨"2024-01-01T00:00:03", "ev", [.create_object_relation "r" "o1" "o2" "R"], []⟩

def mW4r : OCED := insertList freshOCED [eW4r1, eW4r2, eW4r3]

/-! ### Dictionary lemmas -/

theorem alookup_append {κ α : Type} [DecidableEq κ] (l : List (κ × α)) (k k2 : κ) (v : α) :
    alookup (l ++ [(k, v)]) k2 =
      ((alookup l k2).or (if k = k2 then some v else none)) := by
  induction l with
  | nil => simp [alookup]
  | cons p t ih =>
    obtain ⟨k3, v3⟩ := p
    by_cases h : k3 = k2 <;> simp [alookup, h, ih]

theorem alookup_aset {κ α : Type} [DecidableEq κ] (l : List (κ × α)) (k k2 : κ) (v : α) :
    alookup (aset l k v) k2 =
      if k2 = k then (alookup l k2).map (fun _ => v) else alookup l k2 := by
  induction l with
  | nil => simp [alookup, aset]
  | cons p t ih =>
    obtain ⟨k3, v3⟩ := p
    by_cases h : k3 = k
    · subst h
      by_cases h2 : k3 = k2
      · subst h2; simp [alookup, aset]
      · have h3 : ¬k2 = k3 := fun hh => h2 hh.symm
        simp [alookup, aset, h2, h3, ih]
    · by_cases h2 : k3 = k2
      · subst h2
        simp [alookup, aset, h, ih]
      · simp [alookup, aset, h, h2, ih]

theorem alookup_dset {κ α : Type} [DecidableEq κ] (l : List (κ × α)) (k k2 : κ) (v : α) :
    alookup (dset l k v) k2 = if k2 = k then some v else alookup l k2 := by
  unfold dset
  by_cases h : (alookup l k).isSome
  · rw [if_pos h, alookup_aset]
    by_cases h2 : k2 = k
    · subst h2
      obtain ⟨w, hw⟩ := Option.isSome_iff_exists.mp h
      simp [hw]
    · simp [h2]
  · rw [if_neg h, alookup_append]
    by_cases h2 : k2 = k
    · subst h2
      rw [Option.not_isSome_iff_eq_none] at h
      simp [h]
    · have h3 : ¬k = k2 := fun hh => h2 hh.symm
      simp [h2, h3]

theorem alookup_dmodify {κ α : Type} [DecidableEq κ] (l : List (κ × α)) (k k2 : κ) (f : α → α) :
    alookup (dmodify l k f) k2 =
      if k2 = k then (alookup l k2).map f else alookup l k2 := by
  induction l with
  | nil => simp [alookup, dmodify]
  | cons p t ih =>
    obtain ⟨k3, v3⟩ := p
    by_cases h : k3 = k
    · subst h
      by_cases h2 : k3 = k2
      · subst h2; simp [alookup, dmodify]
      · have h3 : ¬k2 = k3 := fun hh => h2 hh.symm
        simp [alookup, dmodify, h2, h3, ih]
    · by_cases h2 : k3 = k2
      · subst h2
        simp [alookup, dmodify, h, ih]
      · simp [alookup, dmodify, h, h2, ih]

theorem alookup_aset_isSome {κ α : Type} [DecidableEq κ] (l : List (κ × α)) (k x : κ) (v : α) :
    (alookup (aset l k v) x).isSome = (alookup l x).isSome := by
  rw [alookup_aset]
  by_cases h : x = k <;> simp [h]

/-- Clearing an already dead relation record changes nothing. -/
theorem relation_clear_dead {r : RelationInfo} (h : r.existency = false) :
    { r with existency := false } = r := by
  cases r; simp_all

/-- Clearing an already dead attribute-value record changes nothing. -/
theorem attr_value_clear_dead {v : AttrValueInfo} (h : v.existency = false) :
    { v with existency := false } = v := by
  cases v; simp_all

/-! ### Cascade lemmas -/

/-- The relation cascade succeeds exactly when every back-referenced id is a
key of the relation map. -/
theorem cascadeRelations_ok_iff (rids : List String) (rels : List (String × RelationInfo))
    (inv : List String) :
    (∃ out, cascadeRelations rids rels inv = .ok out) ↔
      ∀ rid ∈ rids, (alookup rels rid).isSome := by
  induction rids generalizing rels inv with
  | nil => simp [cascadeRelations]
  | cons rid0 rest ih =>
    cases hl : alookup rels rid0 with
    | none => simp [cascadeRelations, hl]
    | some r =>
      by_cases he : r.existency = false
      · rw [show cascadeRelations (rid0 :: rest) rels inv = cascadeRelations rest rels inv by
          simp [cascadeRelations, hl, he]]
        rw [ih]
        simp [hl]
      · rw [show cascadeRelations (rid0 :: rest) rels inv =
            cascadeRelations rest (aset rels rid0 { r with existency := false }) (addId inv rid0) by
          simp [cascadeRelations, hl, he]]
        rw [ih]
        constructor
        · intro hall
          intro rid hrid
          rcases List.mem_cons.mp hrid with h1 | h1
          · subst h1; simp [hl]
          · have := hall rid h1
            rwa [alookup_aset_isSome] at this
        · intro hall rid hrid
          rw [alookup_aset_isSome]
          exact hall rid (List.mem_cons_of_mem _ hrid)

/-- The attribute-value cascade succeeds exactly when every back-referenced
id is a key of the attribute-value map. -/
theorem cascadeAttrValues_ok_iff (vids : List String) (vals : List (String × AttrValueInfo))
    (inv : List String) :
    (∃ out, cascadeAttrValues vids vals inv = .ok out) ↔
      ∀ vid ∈ vids, (alookup vals vid).isSome := by
  induction vids generalizing vals inv with
  | nil => simp [cascadeAttrValues]
  | cons vid0 rest ih =>
    cases hl : alookup vals vid0 with
    | none => simp [cascadeAttrValues, hl]
    | some v =>
      by_cases he : v.existency = false
      · rw [show cascadeAttrValues (vid0 :: rest) vals inv = cascadeAttrValues rest vals inv by
          simp [cascadeAttrValues, hl, he]]
        rw [ih]
        simp [hl]
      · rw [show cascadeAttrValues (vid0 :: rest) vals inv =
            cascadeAttrValues rest (aset vals vid0 { v with existency := false }) (addId inv vid0) by
          simp [cascadeAttrValues, hl, he]]
        rw [ih]
        constructor
        · intro hall rid hrid
          rcases List.mem_cons.mp hrid with h1 | h1
          · subst h1; simp [hl]
          · have := hall rid h1
            rwa [alookup_aset_isSome] at this
        · intro hall rid hrid
          rw [alookup_aset_isSome]
          exact hall rid (List.mem_cons_of_mem _ hrid)

/-- Pointwise description of the relation map after a successful cascade:
ids in the list get existency cleared (a no-op on dead records), all other
keys are untouched, no key appears or disappears. -/
theorem cascadeRelations_lookup (rids : List String) (rels rels2 : List (String × RelationInfo))
    (inv inv2 : List String)
    (h : cascadeRelations rids rels inv = .ok (rels2, inv2)) (rid : String) :
    alookup rels2 rid =
      (alookup rels rid).map (fun r => if rid ∈ rids then { r with existency := false } else r) := by
  induction rids generalizing rels inv with
  | nil =>
    simp [cascadeRelations] at h
    obtain ⟨h1, h2⟩ := h
    subst h1
    cases alookup rels rid <;> simp
  | cons rid0 rest ih =>
    cases hl : alookup rels rid0 with
    | none => simp [cascadeRelations, hl] at h
    | some r =>
      by_cases he : r.existency = false
      · rw [show cascadeRelations (rid0 :: rest) rels inv = cascadeRelations rest rels inv by
          simp [cascadeRelations, hl, he]] at h
        have := ih rels inv h
        by_cases hr : rid = rid0
        · subst hr
          rw [this, hl]
          by_cases hm : rid ∈ rest <;>
            simp [hm, relation_clear_dead he]
        · rw [this]
          cases alookup rels rid <;> simp [hr]
      · rw [show cascadeRelations (rid0 :: rest) rels inv =
            cascadeRelations rest (aset rels rid0 { r with existency := false }) (addId inv rid0) by
          simp [cascadeRelations, hl, he]] at h
        have := ih _ _ h
        rw [this, alookup_aset]
        by_cases hr : rid = rid0
        · subst hr
          rw [hl]
          by_cases hm : rid ∈ rest <;> simp [hm]
        · simp only [if_neg hr]
          cases alookup rels rid <;> simp [hr]

/-- Pointwise description of the attribute-value map after a successful
cascade. -/
theorem cascadeAttrValues_lookup (vids : List String)
    (vals vals2 : List (String × AttrValueInfo)) (inv inv2 : List String)
    (h : cascadeAttrValues vids vals inv = .ok (vals2, inv2)) (vid : String) :
    alookup vals2 vid =
      (alookup vals vid).map (fun v => if vid ∈ vids then { v with existency := false } else v) := by
  induction vids generalizing vals inv with
  | nil =>
    simp [cascadeAttrValues] at h
    obtain ⟨h1, h2⟩ := h
    subst h1
    cases alookup vals vid <;> simp
  | cons vid0 rest ih =>
    cases hl : alookup vals vid0 with
    | none => simp [cascadeAttrValues, hl] at h
    | some v =>
      by_cases he : v.existency = false
      · rw [show cascadeAttrValues (vid0 :: rest) vals inv = cascadeAttrValues rest vals inv by
          simp [cascadeAttrValues, hl, he]] at h
        have := ih vals inv h
        by_cases hr : vid = vid0
        · subst hr
          rw [this, hl]
          by_cases hm : vid ∈ rest <;>
            simp [hm, attr_value_clear_dead he]
        · rw [this]
          cases alookup vals vid <;> simp [hr]
      · rw [show cascadeAttrValues (vid0 :: rest) vals inv =
            cascadeAttrValues rest (aset vals vid0 { v with existency := false }) (addId inv vid0) by
          simp [cascadeAttrValues, hl, he]] at h
        have := ih _ _ h
        rw [this, alookup_aset]
        by_cases hr : vid = vid0
        · subst hr
          rw [hl]
          by_cases hm : vid ∈ rest <;> simp [hm]
        · simp only [if_neg hr]
          cases alookup vals vid <;> simp [hr]

/-! ### C7: cascade completeness of delete_object -/

/-- C7: applying delete_object to a live object clears its existency and
clears the existency of exactly those relations and attribute-values listed
in its back-reference lists that were live at delete time; relations and
attribute-values that were already dead, and every entity not in its
back-reference lists, keep their state unchanged (and so does every other
object). -/
theorem delete_object_cascade_exact (cs : CurrentState) (inv : InvolvedIds) (oid : String)
    (o : ObjectInfo)
    (h1 : alookup cs.object oid = some o)
    (h2 : o.existency = true)
    (h3 : ∀ rid ∈ o.object_relation_ids, (alookup cs.object_relation rid).isSome)
    (h4 : ∀ vid ∈ o.object_attribute_value_ids, (alookup cs.object_attribute_value vid).isSome) :
    ∃ cs' inv', update_current_state (.delete_object oid) cs inv = .ok (cs', inv') ∧
      alookup cs'.object oid = some { o with existency := false } ∧
      (∀ id2, id2 ≠ oid → alookup cs'.object id2 = alookup cs.object id2) ∧
      (∀ rid r, alookup cs.object_relation rid = some r → rid ∈ o.object_relation_ids →
        r.existency = true →
        alookup cs'.object_relation rid = some { r with existency := false }) ∧
      (∀ rid r, alookup cs.object_relation rid = some r →
        (rid ∉ o.object_relation_ids ∨ r.existency = false) →
        alookup cs'.object_relation rid = some r) ∧
      (∀ rid, alookup cs.object_relation rid = none → alookup cs'.object_relation rid = none) ∧
      (∀ vid v, alookup cs.object_attribute_value vid = some v →
        vid ∈ o.object_attribute_value_ids → v.existency = true →
        alookup cs'.object_attribute_value vid = some { v with existency := false }) ∧
      (∀ vid v, alookup cs.object_attribute_value vid = some v →
        (vid ∉ o.object_attribute_value_ids ∨ v.existency = false) →
        alookup cs'.object_attribute_value vid = some v) ∧
      (∀ vid, alookup cs.object_attribute_value vid = none →
        alookup cs'.object_attribute_value vid = none) := by
  obtain ⟨⟨rels2, invR⟩, hcr⟩ :=
    (cascadeRelations_ok_iff o.object_relation_ids cs.object_relation inv.object_relation).mpr h3
  obtain ⟨⟨vals2, invV⟩, hcv⟩ :=
    (cascadeAttrValues_ok_iff o.object_attribute_value_ids cs.object_attribute_value
      inv.object_attribute_value).mpr h4
  refine ⟨⟨dmodify cs.object oid (fun x => { x with existency := false }), rels2, vals2⟩,
    ⟨addId inv.object oid, invR, invV⟩, ?_, ?_, ?_, ?_, ?_, ?_, ?_, ?_, ?_⟩
  · simp [update_current_state, h1, h2, hcr, hcv]
  · rw [alookup_dmodify]
    simp [h1]
  · intro id2 hne
    rw [alookup_dmodify, if_neg hne]
  · intro rid r hr hmem hlive
    rw [cascadeRelations_lookup _ _ _ _ _ hcr, hr]
    simp [hmem]
  · intro rid r hr hcond
    rw [cascadeRelations_lookup _ _ _ _ _ hcr, hr]
    rcases hcond with hc | hc
    · simp [hc]
    · by_cases hmem : rid ∈ o.object_relation_ids <;>
        simp [hmem, relation_clear_dead hc]
  · intro rid hr
    rw [cascadeRelations_lookup _ _ _ _ _ hcr, hr]
    rfl
  · intro vid v hv hmem hlive
    rw [cascadeAttrValues_lookup _ _ _ _ _ hcv, hv]
    simp [hmem]
  · intro vid v hv hcond
    rw [cascadeAttrValues_lookup _ _ _ _ _ hcv, hv]
    rcases hcond with hc | hc
    · simp [hc]
    · by_cases hmem : vid ∈ o.object_attribute_value_ids <;>
        simp [hmem, attr_value_clear_dead hc]
  · intro vid hv
    rw [cascadeAttrValues_lookup _ _ _ _ _ hcv, hv]
    rfl


theorem delete_object_cascade_exact_witness :
    ∃ cs' inv', update_current_state (.delete_object "o") csW7 emptyInvolved = .ok (cs', inv') := by
  obtain ⟨cs', inv', hok, -⟩ :=
    delete_object_cascade_exact csW7 emptyInvolved "o" ⟨"T", true, ["r"], ["v"]⟩
      (by decide) rfl (by decide) (by decide)
  exact ⟨cs', inv', hok⟩

/-! ### C1: atomicity of insert_event -/

/-- C1: for every event whose validation fails (any qualifier precondition
violation, or a timestamp-monotonicity violation, both reported by
Event.__precondition), insert_event raises the error and the model a caller
observes afterwards is identical to its pre-call value in every field:
current state, all history and junction tables, the log, and the event
counter. -/
theorem insert_event_atomic (m : OCED) (e : Event) (err : PyError)
    (h : precondition m e = .error err) :
    insert_event m e = .error err ∧ processEvent m e = m := by
  refine ⟨?_, ?_⟩ <;> simp [insert_event, processEvent, h]


theorem insert_event_atomic_witness :
    insert_event freshOCED eW1 = .error .attributeError ∧
      processEvent freshOCED eW1 = freshOCED :=
  insert_event_atomic freshOCED eW1 .attributeError rfl

/-! ### C3: the error kind raised on qualifier precondition violations -/

/-- C3 is a code bug: the docstrings of the __update_current_state methods
(and the spec) promise a ValueError on a qualifier precondition violation,
but every such raise site interpolates self.__name__ into its message
f-string and instances of the qualifier classes have no __name__ attribute,
so the interpreter raises AttributeError while building the message and the
ValueError is never constructed.  Here a well-typed event whose qualifier
deletes a missing object surfaces attributeError (not valueError) out of
insert_event on a fresh model. -/
theorem qualifier_precondition_error_kind :
    insert_event freshOCED ⟨"2024-01-01T00:00:01", "ev", [.delete_object "o1"], []⟩ =
      .error .attributeError ∧ PyError.attributeError ≠ PyError.valueError :=
  ⟨rfl, by decide⟩

/-! ### C5: the failure condition of create_object_attribute_value -/

/-- C5 counterexample: the claim says create_object_attribute_value succeeds
for any unused value id whatever the owner object_id refers to; but with an
unused id and an owner that is not a known object the unguarded subscript
current_state.object[object_id] (source line 955) raises KeyError, so the
qualifier fails. -/
theorem create_attr_value_unused_id_cex :
    alookup (⟨[], [], []⟩ : CurrentState).object_attribute_value "v" = none ∧
    update_current_state (.create_object_attribute_value "v" "o" "n" "x")
      ⟨[], [], []⟩ emptyInvolved = .error .keyError :=
  ⟨rfl, rfl⟩

/-- C5 amended: applying create_object_attribute_value fails exactly when
its object_attribute_value_id is already known (live or soft-deleted) or
its owner object_id is not a known object; for any unused id whose owner is
known — live or soft-deleted — it succeeds, inserting a live
attribute-value and appending its id to the back-reference list of the
owner object. -/
theorem create_attr_value_charact (cs : CurrentState) (inv : InvolvedIds)
    (vid oid nm vl : String) :
    ((alookup cs.object_attribute_value vid).isSome →
      update_current_state (.create_object_attribute_value vid oid nm vl) cs inv =
        .error .attributeError) ∧
    (alookup cs.object_attribute_value vid = none → alookup cs.object oid = none →
      update_current_state (.create_object_attribute_value vid oid nm vl) cs inv =
        .error .keyError) ∧
    (alookup cs.object_attribute_value vid = none → ∀ o, alookup cs.object oid = some o →
      ∃ cs' inv',
        update_current_state (.create_object_attribute_value vid oid nm vl) cs inv =
          .ok (cs', inv') ∧
        alookup cs'.object_attribute_value vid = some ⟨nm, vl, true, oid⟩ ∧
        (∀ vid2, vid2 ≠ vid →
          alookup cs'.object_attribute_value vid2 = alookup cs.object_attribute_value vid2) ∧
        alookup cs'.object oid =
          some { o with object_attribute_value_ids := o.object_attribute_value_ids ++ [vid] } ∧
        (∀ oid2, oid2 ≠ oid → alookup cs'.object oid2 = alookup cs.object oid2) ∧
        cs'.object_relation = cs.object_relation) := by
  refine ⟨?_, ?_, ?_⟩
  · intro h
    simp [update_current_state, h]
  · intro h1 h2
    simp [update_current_state, h1, h2]
  · intro h1 o h2
    refine ⟨{ cs with
        object_attribute_value := dset cs.object_attribute_value vid ⟨nm, vl, true, oid⟩,
        object := dmodify cs.object oid (fun x =>
          { x with object_attribute_value_ids := x.object_attribute_value_ids ++ [vid] }) },
      { inv with object_attribute_value := addId inv.object_attribute_value vid },
      ?_, ?_, ?_, ?_, ?_, rfl⟩
    · simp [update_current_state, h1, h2]
    · rw [alookup_dset]
      simp
    · intro vid2 hne
      rw [alookup_dset, if_neg hne]
    · rw [alookup_dmodify]
      simp [h2]
    · intro oid2 hne
      rw [alookup_dmodify, if_neg hne]


theorem create_attr_value_charact_witness :
    ∃ cs' inv',
      update_current_state (.create_object_attribute_value "v" "o" "n" "x")
        csW5 emptyInvolved = .ok (cs', inv') ∧
      alookup cs'.object_attribute_value "v" = some ⟨"n", "x", true, "o"⟩ := by
  obtain ⟨cs', inv', hok, hval, -⟩ :=
    (create_attr_value_charact csW5 emptyInvolved "v" "o" "n" "x").2.2 rfl
      ⟨"T", false, [], []⟩ rfl
  exact ⟨cs', inv', hok, hval⟩

/-! ### C9: involvement asymmetry -/

theorem cascadeRelations_isOk_inv (rids : List String) (rels : List (String × RelationInfo))
    (inv inv' : List String) :
    (cascadeRelations rids rels inv).isOk = (cascadeRelations rids rels inv').isOk := by
  by_cases h : ∀ rid ∈ rids, (alookup rels rid).isSome
  · obtain ⟨o1, e1⟩ := (cascadeRelations_ok_iff rids rels inv).mpr h
    obtain ⟨o2, e2⟩ := (cascadeRelations_ok_iff rids rels inv').mpr h
    simp [e1, e2, Except.isOk, Except.toBool]
  · have n1 : ∀ out, cascadeRelations rids rels inv ≠ .ok out :=
      fun out hout => h ((cascadeRelations_ok_iff rids rels inv).mp ⟨out, hout⟩)
    have n2 : ∀ out, cascadeRelations rids rels inv' ≠ .ok out :=
      fun out hout => h ((cascadeRelations_ok_iff rids rels inv').mp ⟨out, hout⟩)
    cases e1 : cascadeRelations rids rels inv with
    | ok o => exact absurd e1 (n1 o)
    | error a =>
      cases e2 : cascadeRelations rids rels inv' with
      | ok o => exact absurd e2 (n2 o)
      | error b => simp [Except.isOk, Except.toBool]

theorem cascadeAttrValues_isOk_inv (vids : List String)
    (vals : List (String × AttrValueInfo)) (inv inv' : List String) :
    (cascadeAttrValues vids vals inv).isOk = (cascadeAttrValues vids vals inv').isOk := by
  by_cases h : ∀ vid ∈ vids, (alookup vals vid).isSome
  · obtain ⟨o1, e1⟩ := (cascadeAttrValues_ok_iff vids vals inv).mpr h
    obtain ⟨o2, e2⟩ := (cascadeAttrValues_ok_iff vids vals inv').mpr h
    simp [e1, e2, Except.isOk, Except.toBool]
  · have n1 : ∀ out, cascadeAttrValues vids vals inv ≠ .ok out :=
      fun out hout => h ((cascadeAttrValues_ok_iff vids vals inv).mp ⟨out, hout⟩)
    have n2 : ∀ out, cascadeAttrValues vids vals inv' ≠ .ok out :=
      fun out hout => h ((cascadeAttrValues_ok_iff vids vals inv').mp ⟨out, hout⟩)
    cases e1 : cascadeAttrValues vids vals inv with
    | ok o => exact absurd e1 (n1 o)
    | error a =>
      cases e2 : cascadeAttrValues vids vals inv' with
      | ok o => exact absurd e2 (n2 o)
      | error b => simp [Except.isOk, Except.toBool]

/-- C9: within one event, an involve_object, involve_object_relation or
involve_object_attribute_value qualifier fails exactly when its target is
missing or dead in the working state, or when the target id is already in
the involved-ids set threaded through the event (a set that earlier
create, delete and modify qualifiers also populate); whereas the CREATE,
DELETE and MODIFY qualifiers never consult the involved-ids set, so whether
they fail is entirely independent of it — in particular they never fail on
account of the same id being involved earlier in the event. -/
theorem involvement_asymmetry :
    (∀ (cs : CurrentState) (inv : InvolvedIds) (oid : String),
      update_current_state (.involve_object oid) cs inv = .error .attributeError ↔
        (¬∃ o : ObjectInfo, alookup cs.object oid = some o ∧ o.existency = true) ∨
          oid ∈ inv.object) ∧
    (∀ (cs : CurrentState) (inv : InvolvedIds) (rid : String),
      update_current_state (.involve_object_relation rid) cs inv = .error .attributeError ↔
        (¬∃ r : RelationInfo, alookup cs.object_relation rid = some r ∧ r.existency = true) ∨
          rid ∈ inv.object_relation) ∧
    (∀ (cs : CurrentState) (inv : InvolvedIds) (vid : String),
      update_current_state (.involve_object_attribute_value vid) cs inv =
          .error .attributeError ↔
        (¬∃ v : AttrValueInfo,
            alookup cs.object_attribute_value vid = some v ∧ v.existency = true) ∨
          vid ∈ inv.object_attribute_value) ∧
    (∀ (cs : CurrentState) (inv : InvolvedIds) (oid : String) (p : CurrentState × InvolvedIds),
      update_current_state (.involve_object oid) cs inv = .ok p → p.1 = cs) ∧
    (∀ (q : Qualifier), q.isMutation = true → ∀ (cs : CurrentState) (inv inv' : InvolvedIds),
      (update_current_state q cs inv).isOk = (update_current_state q cs inv').isOk) := by
  refine ⟨?_, ?_, ?_, ?_, ?_⟩
  · intro cs inv oid
    cases hl : alookup cs.object oid with
    | none => simp [update_current_state, hl]
    | some o =>
      by_cases he : o.existency = false
      · simp [update_current_state, hl, he]
      · by_cases hm : oid ∈ inv.object <;>
          simp_all [update_current_state, hl, he, hm]
  · intro cs inv rid
    cases hl : alookup cs.object_relation rid with
    | none => simp [update_current_state, hl]
    | some r =>
      by_cases he : r.existency = false
      · simp [update_current_state, hl, he]
      · by_cases hm : rid ∈ inv.object_relation <;>
          simp_all [update_current_state, hl, he, hm]
  · intro cs inv vid
    cases hl : alookup cs.object_attribute_value vid with
    | none => simp [update_current_state, hl]
    | some v =>
      by_cases he : v.existency = false
      · simp [update_current_state, hl, he]
      · by_cases hm : vid ∈ inv.object_attribute_value <;>
          simp_all [update_current_state, hl, he, hm]
  · intro cs inv oid p h
    revert h
    cases hl : alookup cs.object oid with
    | none => simp [update_current_state, hl]
    | some o =>
      by_cases he : o.existency = false
      · simp [update_current_state, hl, he]
      · by_cases hm : oid ∈ inv.object
        · simp [update_current_state, hl, he, hm]
        · simp [update_current_state, hl, he, hm]
          intro h1
          rw [← h1]
  · intro q hq cs inv inv'
    cases q with
    | create_object oid ty =>
      by_cases h : (alookup cs.object oid).isSome <;>
        simp [update_current_state, h, Except.isOk, Except.toBool]
    | create_object_relation rid f t ty =>
      by_cases h : (alookup cs.object_relation rid).isSome
      · simp [update_current_state, h, Except.isOk, Except.toBool]
      · cases hl : alookup cs.object t with
        | none => simp [update_current_state, h, hl, Except.isOk, Except.toBool]
        | some ot =>
          by_cases he : ot.existency = false
          · simp [update_current_state, h, hl, he, Except.isOk, Except.toBool]
          · cases hl2 : alookup cs.object f with
            | none => simp [update_current_state, h, hl, hl2, he, Except.isOk, Except.toBool]
            | some ofr =>
              by_cases he2 : ofr.existency = false <;>
                simp [update_current_state, h, hl, hl2, he, he2, Except.isOk, Except.toBool]
    | create_object_attribute_value vid oid nm vl =>
      by_cases h : (alookup cs.object_attribute_value vid).isSome
      · simp [update_current_state, h, Except.isOk, Except.toBool]
      · cases hl : alookup cs.object oid <;>
          simp [update_current_state, h, hl, Except.isOk, Except.toBool]
    | delete_object oid =>
      cases hl : alookup cs.object oid with
      | none => simp [update_current_state, hl, Except.isOk, Except.toBool]
      | some o =>
        by_cases he : o.existency = false
        · simp [update_current_state, hl, he, Except.isOk, Except.toBool]
        · cases e1 : cascadeRelations o.object_relation_ids cs.object_relation inv.object_relation with
          | error a =>
            have := cascadeRelations_isOk_inv o.object_relation_ids cs.object_relation
              inv.object_relation inv'.object_relation
            rw [e1] at this
            cases e2 : cascadeRelations o.object_relation_ids cs.object_relation
                inv'.object_relation with
            | error b =>
              simp [update_current_state, hl, he, e1, e2, Except.isOk, Except.toBool]
            | ok o2 => rw [e2] at this; simp [Except.isOk, Except.toBool] at this
          | ok p1 =>
            have := cascadeRelations_isOk_inv o.object_relation_ids cs.object_relation
              inv.object_relation inv'.object_relation
            rw [e1] at this
            cases e2 : cascadeRelations o.object_relation_ids cs.object_relation
                inv'.object_relation with
            | error b => rw [e2] at this; simp [Except.isOk, Except.toBool] at this
            | ok p2 =>
              obtain ⟨rels1, invR1⟩ := p1
              obtain ⟨rels2, invR2⟩ := p2
              cases f1 : cascadeAttrValues o.object_attribute_value_ids
                  cs.object_attribute_value inv.object_attribute_value with
              | error a =>
                have hv := cascadeAttrValues_isOk_inv o.object_attribute_value_ids
                  cs.object_attribute_value inv.object_attribute_value inv'.object_attribute_value
                rw [f1] at hv
                cases f2 : cascadeAttrValues o.object_attribute_value_ids
                    cs.object_attribute_value inv'.object_attribute_value with
                | error b =>
                  simp [update_current_state, hl, he, e1, e2, f1, f2, Except.isOk, Except.toBool]
                | ok w2 => rw [f2] at hv; simp [Except.isOk, Except.toBool] at hv
              | ok w1 =>
                have hv := cascadeAttrValues_isOk_inv o.object_attribute_value_ids
                  cs.object_attribute_value inv.object_attribute_value inv'.object_attribute_value
                rw [f1] at hv
                cases f2 : cascadeAttrValues o.object_attribute_value_ids
                    cs.object_attribute_value inv'.object_attribute_value with
                | error b => rw [f2] at hv; simp [Except.isOk, Except.toBool] at hv
                | ok w2 =>
                  obtain ⟨vals1, invV1⟩ := w1
                  obtain ⟨vals2, invV2⟩ := w2
                  simp [update_current_state, hl, he, e1, e2, f1, f2, Except.isOk, Except.toBool]
    | delete_object_relation rid =>
      cases hl : alookup cs.object_relation rid with
      | none => simp [update_current_state, hl, Except.isOk, Except.toBool]
      | some r =>
        by_cases he : r.existency = false <;>
          simp [update_current_state, hl, he, Except.isOk, Except.toBool]
    | delete_object_attribute_value vid =>
      cases hl : alookup cs.object_attribute_value vid with
      | none => simp [update_current_state, hl, Except.isOk, Except.toBool]
      | some v =>
        by_cases he : v.existency = false <;>
          simp [update_current_state, hl, he, Except.isOk, Except.toBool]
    | modify_object oid newty =>
      cases hl : alookup cs.object oid with
      | none => simp [update_current_state, hl, Except.isOk, Except.toBool]
      | some o =>
        by_cases he : o.existency = false
        · simp [update_current_state, hl, he, Except.isOk, Except.toBool]
        · by_cases ht : o.type = newty <;>
            simp [update_current_state, hl, he, ht, Except.isOk, Except.toBool]
    | modify_object_relation rid newty =>
      cases hl : alookup cs.object_relation rid with
      | none => simp [update_current_state, hl, Except.isOk, Except.toBool]
      | some r =>
        by_cases he : r.existency = false
        · simp [update_current_state, hl, he, Except.isOk, Except.toBool]
        · by_cases ht : r.type = newty <;>
            simp [update_current_state, hl, he, ht, Except.isOk, Except.toBool]
    | modify_object_attribute_value vid newvl =>
      cases hl : alookup cs.object_attribute_value vid with
      | none => simp [update_current_state, hl, Except.isOk, Except.toBool]
      | some v =>
        by_cases he : v.existency = false
        · simp [update_current_state, hl, he, Except.isOk, Except.toBool]
        · by_cases ht : v.value = newvl <;>
            simp [update_current_state, hl, he, ht, Except.isOk, Except.toBool]
    | involve_object oid => simp [Qualifier.isMutation, Qualifier.qualifier_type] at hq
    | involve_object_relation rid => simp [Qualifier.isMutation, Qualifier.qualifier_type] at hq
    | involve_object_attribute_value vid =>
      simp [Qualifier.isMutation, Qualifier.qualifier_type] at hq



theorem involvement_asymmetry_witness :
    update_current_state (.involve_object "o") csW9 invW9 = .error .attributeError ∧
    (update_current_state (.modify_object "o" "U") csW9 invW9).isOk =
      (update_current_state (.modify_object "o" "U") csW9 emptyInvolved).isOk := by
  constructor
  · exact (involvement_asymmetry.1 csW9 invW9 "o").mpr (Or.inr (by decide))
  · exact involvement_asymmetry.2.2.2.2 (.modify_object "o" "U") (by decide) csW9 invW9
      emptyInvolved

/-! ### Frame facts about the commit pass -/


theorem StepFrame.refl (m : OCED) : StepFrame m m :=
  ⟨rfl, rfl, rfl, rfl, rfl, rfl, rfl, id, id, id,
   fun _ hr => Or.inl hr, fun _ hr => Or.inl hr, fun _ hr => Or.inl hr⟩

theorem StepFrame.trans {m m1 m2 : OCED} (h1 : StepFrame m m1) (h2 : StepFrame m1 m2) :
    StepFrame m m2 := by
  refine ⟨h2.event_eq.trans h1.event_eq, h2.event_time_eq.trans h1.event_time_eq,
    h2.event_type_eq.trans h1.event_type_eq,
    h2.event_attr_name_eq.trans h1.event_attr_name_eq,
    h2.event_attr_value_eq.trans h1.event_attr_value_eq,
    h2.log_eq.trans h1.log_eq, h2.counter_eq.trans h1.counter_eq,
    fun h => h2.object_type_nodup (h1.object_type_nodup h),
    fun h => h2.relation_type_nodup (h1.relation_type_nodup h),
    fun h => h2.attr_name_nodup (h1.attr_name_nodup h), ?_, ?_, ?_⟩
  · intro r hr
    rcases h2.exo r hr with h | h
    · exact h1.exo r h
    · exact Or.inr (h.trans h1.counter_eq)
  · intro r hr
    rcases h2.exr r hr with h | h
    · exact h1.exr r h
    · exact Or.inr (h.trans h1.counter_eq)
  · intro r hr
    rcases h2.exv r hr with h | h
    · exact h1.exv r h
    · exact Or.inr (h.trans h1.counter_eq)

theorem insertUnique_nodup (l : List String) (v : String) (h : l.Nodup) :
    (insertUnique l v).Nodup := by
  unfold insertUnique
  by_cases hm : v ∈ l
  · simpa [hm]
  · simp only [hm, if_false]
    rw [List.nodup_append]
    exact ⟨h, List.nodup_singleton v, fun a ha hb => hm (by simpa using (List.mem_singleton.mp hb) ▸ ha)⟩

theorem mem_append_singleton {α : Type} (l : List α) (v a : α) (h : a ∈ l ++ [v]) :
    a ∈ l ∨ a = v := by
  rcases List.mem_append.mp h with h | h
  · exact Or.inl h
  · exact Or.inr (List.mem_singleton.mp h)

theorem deleteRelRows_ok (rids : List String) (m : OCED) (k : Nat)
    (h : ∀ rid ∈ rids, (alookup m.current_state.object_relation rid).isSome) :
    ∃ m2, deleteRelRows rids m k = .ok m2 ∧ m2.current_state = m.current_state ∧
      StepFrame m m2 := by
  induction rids generalizing m with
  | nil => exact ⟨m, rfl, rfl, StepFrame.refl m⟩
  | cons rid rest ih =>
    obtain ⟨r, hr⟩ := Option.isSome_iff_exists.mp (h rid (List.mem_cons_self rid rest))
    by_cases he : r.existency = false
    · obtain ⟨m2, h1, h2, h3⟩ := ih m (fun x hx => h x (List.mem_cons_of_mem _ hx))
      refine ⟨m2, ?_, h2, h3⟩
      rw [show deleteRelRows (rid :: rest) m k = deleteRelRows rest m k by
        simp [deleteRelRows, hr, he]]
      exact h1
    · set m1 : OCED := { m with
        object_relation :=
          m.object_relation ++ [⟨rid, r.from_object_id, r.to_object_id, r.type, false⟩],
        event_x_object_relation :=
          m.event_x_object_relation ++ [⟨m.event_counter, rid, "DELETE", k⟩] } with hm1
      have hstep : StepFrame m m1 := by
        refine ⟨rfl, rfl, rfl, rfl, rfl, rfl, rfl, id, id, id,
          fun x hx => Or.inl hx, ?_, fun x hx => Or.inl hx⟩
        intro x hx
        rcases mem_append_singleton _ _ _ hx with h1 | h1
        · exact Or.inl h1
        · subst h1; exact Or.inr rfl
      obtain ⟨m2, h1, h2, h3⟩ := ih m1 (fun x hx => h x (List.mem_cons_of_mem _ hx))
      refine ⟨m2, ?_, h2, hstep.trans h3⟩
      rw [show deleteRelRows (rid :: rest) m k = deleteRelRows rest m1 k by
        simp [deleteRelRows, hr, he, hm1]]
      exact h1

theorem deleteAttrRows_ok (vids : List String) (m : OCED) (k : Nat)
    (h : ∀ vid ∈ vids, (alookup m.current_state.object_attribute_value vid).isSome) :
    ∃ m2, deleteAttrRows vids m k = .ok m2 ∧ m2.current_state = m.current_state ∧
      StepFrame m m2 := by
  induction vids generalizing m with
  | nil => exact ⟨m, rfl, rfl, StepFrame.refl m⟩
  | cons vid rest ih =>
    obtain ⟨v, hv⟩ := Option.isSome_iff_exists.mp (h vid (List.mem_cons_self vid rest))
    by_cases he : v.existency = false
    · obtain ⟨m2, h1, h2, h3⟩ := ih m (fun x hx => h x (List.mem_cons_of_mem _ hx))
      refine ⟨m2, ?_, h2, h3⟩
      rw [show deleteAttrRows (vid :: rest) m k = deleteAttrRows rest m k by
        simp [deleteAttrRows, hv, he]]
      exact h1
    · set m1 : OCED := { m with
        object_attribute_value :=
          m.object_attribute_value ++ [⟨vid, v.object_id, v.name, v.value, false⟩],
        event_x_object_attribute_value :=
          m.event_x_object_attribute_value ++ [⟨m.event_counter, vid, "DELETE", k⟩] } with hm1
      have hstep : StepFrame m m1 := by
        refine ⟨rfl, rfl, rfl, rfl, rfl, rfl, rfl, id, id, id,
          fun x hx => Or.inl hx, fun x hx => Or.inl hx, ?_⟩
        intro x hx
        rcases mem_append_singleton _ _ _ hx with h1 | h1
        · exact Or.inl h1
        · subst h1; exact Or.inr rfl
      obtain ⟨m2, h1, h2, h3⟩ := ih m1 (fun x hx => h x (List.mem_cons_of_mem _ hx))
      refine ⟨m2, ?_, h2, hstep.trans h3⟩
      rw [show deleteAttrRows (vid :: rest) m k = deleteAttrRows rest m1 k by
        simp [deleteAttrRows, hv, he, hm1]]
      exact h1

/-- When the validation pass accepted a qualifier at some state, the table
update of the commit pass at that same state cannot fail, leaves the
current state untouched, and satisfies the frame facts. -/
theorem update_tables_spec (q : Qualifier) (m : OCED) (k : Nat) (inv : InvolvedIds)
    (cs2 : CurrentState) (inv2 : InvolvedIds)
    (h : update_current_state q m.current_state inv = .ok (cs2, inv2)) :
    ∃ m1, update_tables q m k = .ok m1 ∧ m1.current_state = m.current_state ∧
      StepFrame m m1 := by
  cases q with
  | create_object oid ty =>
    refine ⟨_, rfl, rfl, ⟨rfl, rfl, rfl, rfl, rfl, rfl, rfl,
      insertUnique_nodup _ _, id, id, ?_, fun x hx => Or.inl hx, fun x hx => Or.inl hx⟩⟩
    intro x hx
    rcases mem_append_singleton _ _ _ hx with h1 | h1
    · exact Or.inl h1
    · subst h1; exact Or.inr rfl
  | create_object_relation rid f t ty =>
    refine ⟨_, rfl, rfl, ⟨rfl, rfl, rfl, rfl, rfl, rfl, rfl,
      id, insertUnique_nodup _ _, id, fun x hx => Or.inl hx, ?_, fun x hx => Or.inl hx⟩⟩
    intro x hx
    rcases mem_append_singleton _ _ _ hx with h1 | h1
    · exact Or.inl h1
    · subst h1; exact Or.inr rfl
  | create_object_attribute_value vid oid nm vl =>
    refine ⟨_, rfl, rfl, ⟨rfl, rfl, rfl, rfl, rfl, rfl, rfl,
      id, id, insertUnique_nodup _ _, fun x hx => Or.inl hx, fun x hx => Or.inl hx, ?_⟩⟩
    intro x hx
    rcases mem_append_singleton _ _ _ hx with h1 | h1
    · exact Or.inl h1
    · subst h1; exact Or.inr rfl
  | delete_object oid =>
    simp only [update_current_state] at h
    cases hl : alookup m.current_state.object oid with
    | none => simp [hl] at h
    | some o =>
      simp only [hl] at h
      by_cases he : o.existency = false
      · simp [he] at h
      · simp only [if_neg he] at h
        cases hcr : cascadeRelations o.object_relation_ids m.current_state.object_relation
            inv.object_relation with
        | error a => simp [hcr] at h
        | ok pr =>
          obtain ⟨rels2, invR2⟩ := pr
          simp only [hcr] at h
          cases hcv : cascadeAttrValues o.object_attribute_value_ids
              m.current_state.object_attribute_value inv.object_attribute_value with
          | error a => simp [hcv] at h
          | ok pv =>
            obtain ⟨vals2, invV2⟩ := pv
            have hrel : ∀ rid ∈ o.object_relation_ids,
                (alookup m.current_state.object_relation rid).isSome :=
              (cascadeRelations_ok_iff _ _ _).mp ⟨_, hcr⟩
            have hval : ∀ vid ∈ o.object_attribute_value_ids,
                (alookup m.current_state.object_attribute_value vid).isSome :=
              (cascadeAttrValues_ok_iff _ _ _).mp ⟨_, hcv⟩
            set mA : OCED := { m with
              object := m.object ++ [⟨oid, o.type, false⟩],
              event_x_object := m.event_x_object ++ [⟨m.event_counter, oid, "DELETE", k⟩] }
              with hmA
            have hstepA : StepFrame m mA := by
              refine ⟨rfl, rfl, rfl, rfl, rfl, rfl, rfl, id, id, id, ?_,
                fun x hx => Or.inl hx, fun x hx => Or.inl hx⟩
              intro x hx
              rcases mem_append_singleton _ _ _ hx with h1 | h1
              · exact Or.inl h1
              · subst h1; exact Or.inr rfl
            obtain ⟨mB, hB, hBcs, hBf⟩ := deleteRelRows_ok o.object_relation_ids mA k hrel
            have hvalB : ∀ vid ∈ o.object_attribute_value_ids,
                (alookup mB.current_state.object_attribute_value vid).isSome := by
              intro vid hvid
              rw [hBcs]
              exact hval vid hvid
            obtain ⟨mC, hC, hCcs, hCf⟩ := deleteAttrRows_ok o.object_attribute_value_ids mB k hvalB
            refine ⟨mC, ?_, by rw [hCcs, hBcs], hstepA.trans (hBf.trans hCf)⟩
            simp [update_tables, hl, ← hmA, hB, hC]
  | delete_object_relation rid =>
    simp only [update_current_state] at h
    cases hl : alookup m.current_state.object_relation rid with
    | none => simp [hl] at h
    | some r =>
      refine ⟨{ m with
          object_relation :=
            m.object_relation ++ [⟨rid, r.from_object_id, r.to_object_id, r.type, false⟩],
          event_x_object_relation :=
            m.event_x_object_relation ++ [⟨m.event_counter, rid, "DELETE", k⟩] },
        by simp [update_tables, hl], rfl, ⟨rfl, rfl, rfl, rfl, rfl, rfl, rfl,
        id, id, id, fun x hx => Or.inl hx, ?_, fun x hx => Or.inl hx⟩⟩
      intro x hx
      rcases mem_append_singleton _ _ _ hx with h1 | h1
      · exact Or.inl h1
      · subst h1; exact Or.inr rfl
  | delete_object_attribute_value vid =>
    simp only [update_current_state] at h
    cases hl : alookup m.current_state.object_attribute_value vid with
    | none => simp [hl] at h
    | some v =>
      refine ⟨{ m with
          object_attribute_value :=
            m.object_attribute_value ++ [⟨vid, v.object_id, v.name, v.value, false⟩],
          event_x_object_attribute_value :=
            m.event_x_object_attribute_value ++ [⟨m.event_counter, vid, "DELETE", k⟩] },
        by simp [update_tables, hl], rfl, ⟨rfl, rfl, rfl, rfl, rfl, rfl, rfl,
        id, id, id, fun x hx => Or.inl hx, fun x hx => Or.inl hx, ?_⟩⟩
      intro x hx
      rcases mem_append_singleton _ _ _ hx with h1 | h1
      · exact Or.inl h1
      · subst h1; exact Or.inr rfl
  | modify_object oid newty =>
    refine ⟨_, rfl, rfl, ⟨rfl, rfl, rfl, rfl, rfl, rfl, rfl,
      id, id, id, ?_, fun x hx => Or.inl hx, fun x hx => Or.inl hx⟩⟩
    intro x hx
    rcases mem_append_singleton _ _ _ hx with h1 | h1
    · exact Or.inl h1
    · subst h1; exact Or.inr rfl
  | modify_object_relation rid newty =>
    simp only [update_current_state] at h
    cases hl : alookup m.current_state.object_relation rid with
    | none => simp [hl] at h
    | some r =>
      refine ⟨{ m with
          object_relation :=
            m.object_relation ++ [⟨rid, r.from_object_id, r.to_object_id, newty, true⟩],
          event_x_object_relation :=
            m.event_x_object_relation ++ [⟨m.event_counter, rid, "MODIFY", k⟩] },
        by simp [update_tables, hl], rfl, ⟨rfl, rfl, rfl, rfl, rfl, rfl, rfl,
        id, id, id, fun x hx => Or.inl hx, ?_, fun x hx => Or.inl hx⟩⟩
      intro x hx
      rcases mem_append_singleton _ _ _ hx with h1 | h1
      · exact Or.inl h1
      · subst h1; exact Or.inr rfl
  | modify_object_attribute_value vid newvl =>
    simp only [update_current_state] at h
    cases hl : alookup m.current_state.object_attribute_value vid with
    | none => simp [hl] at h
    | some v =>
      refine ⟨{ m with
          object_attribute_value :=
            m.object_attribute_value ++ [⟨vid, v.object_id, v.name, newvl, true⟩],
          event_x_object_attribute_value :=
            m.event_x_object_attribute_value ++ [⟨m.event_counter, vid, "MODIFY", k⟩] },
        by simp [update_tables, hl], rfl, ⟨rfl, rfl, rfl, rfl, rfl, rfl, rfl,
        id, id, id, fun x hx => Or.inl hx, fun x hx => Or.inl hx, ?_⟩⟩
      intro x hx
      rcases mem_append_singleton _ _ _ hx with h1 | h1
      · exact Or.inl h1
      · subst h1; exact Or.inr rfl
  | involve_object oid =>
    refine ⟨_, rfl, rfl, ⟨rfl, rfl, rfl, rfl, rfl, rfl, rfl,
      id, id, id, ?_, fun x hx => Or.inl hx, fun x hx => Or.inl hx⟩⟩
    intro x hx
    rcases mem_append_singleton _ _ _ hx with h1 | h1
    · exact Or.inl h1
    · subst h1; exact Or.inr rfl
  | involve_object_relation rid =>
    refine ⟨_, rfl, rfl, ⟨rfl, rfl, rfl, rfl, rfl, rfl, rfl,
      id, id, id, fun x hx => Or.inl hx, ?_, fun x hx => Or.inl hx⟩⟩
    intro x hx
    rcases mem_append_singleton _ _ _ hx with h1 | h1
    · exact Or.inl h1
    · subst h1; exact Or.inr rfl
  | involve_object_attribute_value vid =>
    refine ⟨_, rfl, rfl, ⟨rfl, rfl, rfl, rfl, rfl, rfl, rfl,
      id, id, id, fun x hx => Or.inl hx, fun x hx => Or.inl hx, ?_⟩⟩
    intro x hx
    rcases mem_append_singleton _ _ _ hx with h1 | h1
    · exact Or.inl h1
    · subst h1; exact Or.inr rfl

/-- Simulation between the validation dry run and the commit loop: when the
dry run over the qualifier list succeeds starting from the current state of
the model, the commit loop from any starting index succeeds, ends with the
state computed by the dry run, and satisfies the frame facts. -/
theorem execQualifiers_sim (qs : List Qualifier) (k : Nat) (m : OCED) (inv : InvolvedIds)
    (cs2 : CurrentState) (inv2 : InvolvedIds)
    (h : applyQualifiers qs m.current_state inv = .ok (cs2, inv2)) :
    ∃ m', execQualifiers qs k m inv = .ok m' ∧ m'.current_state = cs2 ∧ StepFrame m m' := by
  induction qs generalizing k m inv with
  | nil =>
    simp [applyQualifiers] at h
    exact ⟨m, rfl, h.1, StepFrame.refl m⟩
  | cons q rest ih =>
    simp only [applyQualifiers] at h
    cases hu : update_current_state q m.current_state inv with
    | error e => rw [hu] at h; simp at h
    | ok p =>
      obtain ⟨csx, invx⟩ := p
      rw [hu] at h
      obtain ⟨m1, ht, hcs1, hf1⟩ := update_tables_spec q m k inv csx invx hu
      set mA : OCED := { m1 with current_state := csx } with hmA
      have hfA : StepFrame m mA := by
        refine hf1.trans ⟨rfl, rfl, rfl, rfl, rfl, rfl, rfl, id, id, id,
          fun x hx => Or.inl hx, fun x hx => Or.inl hx, fun x hx => Or.inl hx⟩
      have hA : applyQualifiers rest mA.current_state invx = .ok (cs2, inv2) := h
      obtain ⟨m', hexec, hcs, hf2⟩ := ih (k + 1) mA invx hA
      refine ⟨m', ?_, hcs, hfA.trans hf2⟩
      rw [show execQualifiers (q :: rest) k m inv = execQualifiers rest (k + 1) mA invx by
        simp [execQualifiers, ht, hcs1, hu, hmA]]
      exact hexec

/-! ### C2: validation success makes commit infallible -/

/-- C2: if the validation pass over the (deep-copied) current state succeeds
for the qualifier list of an event — ending in state cs2 — then the commit
pass of Event.__execute, re-running the same qualifiers in the same order
against the real current-state store interleaved with the table updates,
cannot fail, and the real current state after commit is exactly cs2. -/
theorem validation_commit_agree (m : OCED) (e : Event) (cs2 : CurrentState)
    (inv2 : InvolvedIds)
    (h : applyQualifiers e.qualifiers m.current_state emptyInvolved = .ok (cs2, inv2)) :
    ∃ m', executeEvent m e = .ok m' ∧ m'.current_state = cs2 := by
  obtain ⟨m', hexec, hcs, -⟩ := execQualifiers_sim e.qualifiers 0
    { m with
      event := m.event ++ [⟨m.event_counter, e.event_type, e.event_time⟩],
      event_type := insertUnique m.event_type e.event_type,
      event_time := m.event_time ++ [e.event_time],
      event_attribute_name := m.event_attribute_name ++
        ((e.event_attributes.map Prod.fst).filter (fun n => n ∉ m.event_attribute_name)),
      event_attribute_value := m.event_attribute_value ++
        e.event_attributes.map (fun p => (⟨m.event_counter, p.1, p.2⟩ : EventAttrRow)) }
    emptyInvolved cs2 inv2 h
  exact ⟨m', hexec, hcs⟩



theorem validation_commit_agree_witness :
    ∃ m', executeEvent freshOCED eW2 = .ok m' ∧ m'.current_state = csW2 :=
  validation_commit_agree freshOCED eW2 csW2 ⟨["o"], [], []⟩ rfl

/-! ### What a successful insert_event does to the model -/

/-- Decomposition of a successful insert_event call: the timestamp check
passed, the validation dry run succeeded, and every field of the resulting
model is described in terms of the pre-call model. -/
theorem insert_event_ok_elim (m m' : OCED) (e : Event) (h : insert_event m e = .ok m') :
    ∃ cs2 inv2,
      applyQualifiers e.qualifiers m.current_state emptyInvolved = .ok (cs2, inv2) ∧
      m'.current_state = cs2 ∧
      m'.event = m.event ++ [⟨m.event_counter, e.event_type, e.event_time⟩] ∧
      m'.event_time = m.event_time ++ [e.event_time] ∧
      m'.event_type = insertUnique m.event_type e.event_type ∧
      m'.event_attribute_name = m.event_attribute_name ++
        ((e.event_attributes.map Prod.fst).filter (fun n => n ∉ m.event_attribute_name)) ∧
      m'.event_counter = m.event_counter + 1 ∧
      (m.object_type.Nodup → m'.object_type.Nodup) ∧
      (m.object_relation_type.Nodup → m'.object_relation_type.Nodup) ∧
      (m.object_attribute_name.Nodup → m'.object_attribute_name.Nodup) ∧
      (∀ r ∈ m'.event_x_object, r ∈ m.event_x_object ∨ r.event_id = m.event_counter) ∧
      (∀ r ∈ m'.event_x_object_relation,
        r ∈ m.event_x_object_relation ∨ r.event_id = m.event_counter) ∧
      (∀ r ∈ m'.event_x_object_attribute_value,
        r ∈ m.event_x_object_attribute_value ∨ r.event_id = m.event_counter) ∧
      (colMax m.event_time = none ∨
        ∃ mx, colMax m.event_time = some mx ∧ strLe e.event_time mx = false) := by
  unfold insert_event at h
  cases hp : precondition m e with
  | error err => rw [hp] at h; simp at h
  | ok u =>
    rw [hp] at h
    have htime : colMax m.event_time = none ∨
        ∃ mx, colMax m.event_time = some mx ∧ strLe e.event_time mx = false := by
      revert hp
      unfold precondition
      cases hc : colMax m.event_time with
      | none => intro _; exact Or.inl rfl
      | some mx =>
        cases hle : strLe e.event_time mx with
        | true => simp [hle]
        | false =>
          intro _
          exact Or.inr ⟨mx, rfl, hle⟩
    have happ : ∃ p, applyQualifiers e.qualifiers m.current_state emptyInvolved = .ok p := by
      revert hp
      unfold precondition
      cases hc : colMax m.event_time with
      | none =>
        cases ha : applyQualifiers e.qualifiers m.current_state emptyInvolved with
        | error err => simp
        | ok p => intro _; exact ⟨p, rfl⟩
      | some mx =>
        cases hle : strLe e.event_time mx with
        | true => simp [hle]
        | false =>
          simp only [hle, Bool.false_eq_true, if_false]
          cases ha : applyQualifiers e.qualifiers m.current_state emptyInvolved with
          | error err => simp
          | ok p => intro _; exact ⟨p, rfl⟩
    obtain ⟨⟨cs2, inv2⟩, ha⟩ := happ
    set m1 : OCED := { m with
      event := m.event ++ [⟨m.event_counter, e.event_type, e.event_time⟩],
      event_type := insertUnique m.event_type e.event_type,
      event_time := m.event_time ++ [e.event_time],
      event_attribute_name := m.event_attribute_name ++
        ((e.event_attributes.map Prod.fst).filter (fun n => n ∉ m.event_attribute_name)),
      event_attribute_value := m.event_attribute_value ++
        e.event_attributes.map (fun p => (⟨m.event_counter, p.1, p.2⟩ : EventAttrRow)) }
      with hm1
    obtain ⟨m2, hexec, hcs, hf⟩ := execQualifiers_sim e.qualifiers 0 m1 emptyInvolved cs2 inv2 ha
    have hE : executeEvent m e = .ok m2 := hexec
    rw [hE] at h
    simp only [Except.ok.injEq] at h
    subst h
    refine ⟨cs2, inv2, ha, hcs, ?_, ?_, ?_, ?_, ?_, ?_, ?_, ?_, ?_, ?_, ?_, htime⟩
    · rw [show (logEvent m2 e).event = m2.event from rfl, hf.event_eq]
    · rw [show (logEvent m2 e).event_time = m2.event_time from rfl, hf.event_time_eq]
    · rw [show (logEvent m2 e).event_type = m2.event_type from rfl, hf.event_type_eq]
    · rw [show (logEvent m2 e).event_attribute_name = m2.event_attribute_name from rfl,
        hf.event_attr_name_eq]
    · rw [show (logEvent m2 e).event_counter = m2.event_counter from rfl, hf.counter_eq]
    · exact hf.object_type_nodup
    · exact hf.relation_type_nodup
    · exact hf.attr_name_nodup
    · exact hf.exo
    · exact hf.exr
    · exact hf.exv

/-- Invariant preservation over any call sequence: a property preserved by
every successful insert_event call holds for every model insertList
produces. -/
theorem insertList_inv (P : OCED → Prop)
    (hstep : ∀ m e m', P m → insert_event m e = .ok m' → P m') :
    ∀ (es : List Event) (m0 : OCED), P m0 → P (insertList m0 es) := by
  intro es
  induction es with
  | nil => intro m0 h; exact h
  | cons e rest ih =>
    intro m0 h
    rw [show insertList m0 (e :: rest) = insertList (processEvent m0 e) rest from rfl]
    apply ih
    unfold processEvent
    cases he : insert_event m0 e with
    | ok m2 => exact hstep m0 e m2 h he
    | error err => exact h

/-! ### Properties of the string order and the column maximum -/

theorem char_toNat_inj {c d : Char} (h : c.toNat = d.toNat) : c = d :=
  Char.eq_of_val_eq (UInt32.toNat.inj h)

theorem listCmp_eq_iff (a b : List Char) : listCmp a b = .eq ↔ a = b := by
  induction a generalizing b with
  | nil => cases b <;> simp [listCmp]
  | cons c cs ih =>
    cases b with
    | nil => simp [listCmp]
    | cons d ds =>
      by_cases h1 : c.toNat < d.toNat
      · simp [listCmp, h1]
        intro hc
        subst hc
        omega
      · by_cases h2 : d.toNat < c.toNat
        · simp [listCmp, h1, h2]
          intro hc
          subst hc
          omega
        · have hc : c = d := char_toNat_inj (by omega)
          subst hc
          simp [listCmp, h1, h2, ih]

theorem listCmp_swap (a b : List Char) : listCmp b a = (listCmp a b).swap := by
  induction a generalizing b with
  | nil => cases b <;> simp [listCmp, Ordering.swap]
  | cons c cs ih =>
    cases b with
    | nil => simp [listCmp, Ordering.swap]
    | cons d ds =>
      by_cases h1 : c.toNat < d.toNat
      · have hnd : ¬d.toNat < c.toNat := by omega
        simp [listCmp, h1, hnd, Ordering.swap]
      · by_cases h2 : d.toNat < c.toNat
        · simp [listCmp, h1, h2, Ordering.swap]
        · simp [listCmp, h1, h2, ih ds]

theorem listCmp_lt_trans {a b c : List Char} (h1 : listCmp a b = .lt)
    (h2 : listCmp b c = .lt) : listCmp a c = .lt := by
  induction a generalizing b c with
  | nil =>
    cases b with
    | nil => simp [listCmp] at h1
    | cons d ds =>
      cases c with
      | nil => simp [listCmp] at h2
      | cons e es => simp [listCmp]
  | cons x xs ih =>
    cases b with
    | nil => simp [listCmp] at h1
    | cons d ds =>
      cases c with
      | nil => simp [listCmp] at h2
      | cons e es =>
        by_cases hxd : x.toNat < d.toNat
        · by_cases hde : d.toNat < e.toNat
          · simp [listCmp, show x.toNat < e.toNat by omega]
          · by_cases hed : e.toNat < d.toNat
            · simp [listCmp, hde, hed] at h2
            · have : d = e := char_toNat_inj (by omega)
              subst this
              simp [listCmp, hxd]
        · by_cases hdx : d.toNat < x.toNat
          · simp [listCmp, hxd, hdx] at h1
          · have hh : x = d := char_toNat_inj (by omega)
            subst hh
            simp only [listCmp, if_neg hxd, if_neg hdx] at h1
            by_cases hde : x.toNat < e.toNat
            · simp [listCmp, hde]
            · by_cases hed : e.toNat < x.toNat
              · simp [listCmp, hde, hed] at h2
              · simp only [listCmp, if_neg hde, if_neg hed] at h2 ⊢
                exact ih h1 h2

theorem strLe_iff_not_gt (a b : String) : strLe a b = true ↔ strCmp a b ≠ .gt := by
  unfold strLe
  cases strCmp a b <;> simp

theorem strLt_iff (a b : String) : strLt a b = true ↔ strCmp a b = .lt := by
  unfold strLt
  cases strCmp a b <;> simp

theorem strCmp_eq_iff (a b : String) : strCmp a b = .eq ↔ a = b := by
  unfold strCmp
  rw [listCmp_eq_iff]
  constructor
  · intro h
    cases a; cases b
    congr
  · intro h; rw [h]

theorem strLe_refl (a : String) : strLe a a = true := by
  rw [strLe_iff_not_gt]
  rw [show strCmp a a = .eq from (strCmp_eq_iff a a).mpr rfl]
  simp

theorem strLt_of_not_le {a b : String} (h : strLe a b = false) : strLt b a = true := by
  rw [strLt_iff]
  have hgt : strCmp a b = .gt := by
    revert h
    unfold strLe
    cases strCmp a b <;> simp
  unfold strCmp at hgt ⊢
  rw [listCmp_swap, hgt]
  rfl

theorem strLt_of_le_of_lt {x y z : String} (h1 : strLe x y = true) (h2 : strLt y z = true) :
    strLt x z = true := by
  rw [strLt_iff] at h2 ⊢
  rw [strLe_iff_not_gt] at h1
  cases hc : strCmp x y with
  | gt => exact absurd hc h1
  | eq =>
    rw [(strCmp_eq_iff x y).mp hc]
    exact h2
  | lt => exact listCmp_lt_trans hc h2

theorem strLe_of_le_of_le {x y z : String} (h1 : strLe x y = true) (h2 : strLe y z = true) :
    strLe x z = true := by
  rw [strLe_iff_not_gt] at h1 h2 ⊢
  cases hc : strCmp x y with
  | gt => exact absurd hc h1
  | eq => rw [← (strCmp_eq_iff x y).mp hc] at h2; exact h2
  | lt =>
    cases hd : strCmp y z with
    | gt => exact absurd hd h2
    | eq =>
      rw [← (strCmp_eq_iff y z).mp hd]
      rw [hc]
      simp
    | lt =>
      have hxz : strCmp x z = .lt := listCmp_lt_trans hc hd
      rw [hxz]
      simp

theorem le_foldl_max (ts : List String) (a : String) :
    strLe a (ts.foldl (fun x b => if strLe x b then b else x) a) = true := by
  induction ts generalizing a with
  | nil => exact strLe_refl a
  | cons b ts ih =>
    refine strLe_of_le_of_le ?_ (ih (if strLe a b then b else a))
    cases h : strLe a b with
    | true => simp [h]
    | false => simp [h, strLe_refl]

theorem mem_le_foldl_max (ts : List String) (x : String) (hx : x ∈ ts) :
    ∀ a, strLe x (ts.foldl (fun y b => if strLe y b then b else y) a) = true := by
  induction ts with
  | nil => cases hx
  | cons b ts ih =>
    intro a
    rcases List.mem_cons.mp hx with h | h
    · subst h
      refine strLe_of_le_of_le ?_ (le_foldl_max ts (if strLe a x then x else a))
      cases h2 : strLe a x with
      | true => simp [h2, strLe_refl]
      | false =>
        simp only [h2, Bool.false_eq_true, if_false]
        have := strLt_of_not_le h2
        rw [strLt_iff] at this
        rw [strLe_iff_not_gt, this]
        simp
    · exact ih h (if strLe a b then b else a)

theorem colMax_le (l : List String) (mx : String) (h : colMax l = some mx) :
    ∀ x ∈ l, strLe x mx = true := by
  cases l with
  | nil => simp [colMax] at h
  | cons t ts =>
    simp only [colMax, Option.some.injEq] at h
    subst h
    intro x hx
    rcases List.mem_cons.mp hx with h | h
    · subst h; exact le_foldl_max ts x
    · exact mem_le_foldl_max ts x h t

theorem colMax_eq_none_iff (l : List String) : colMax l = none ↔ l = [] := by
  cases l <;> simp [colMax]

/-! ### C6: monotonic time -/


theorem TimeInv_preserved (m : OCED) (e : Event) (m' : OCED) (hI : TimeInv m)
    (hok : insert_event m e = .ok m') : TimeInv m' := by
  obtain ⟨h1, h2⟩ := hI
  obtain ⟨cs2, inv2, ha, hcs, hev, hevt, hety, hean, hctr, hn1, hn2, hn3, hj1, hj2, hj3,
    htime⟩ := insert_event_ok_elim m m' e hok
  constructor
  · rw [hevt, hev, h1]
    simp
  · rw [hevt]
    refine List.pairwise_append.mpr ⟨h2, List.pairwise_singleton _ _, ?_⟩
    intro x hx y hy
    rw [List.mem_singleton.mp hy]
    rcases htime with hnone | ⟨mx, hmx, hlt⟩
    · rw [colMax_eq_none_iff] at hnone
      rw [hnone] at hx
      cases hx
    · exact strLt_of_le_of_lt (colMax_le _ _ hmx x hx) (strLt_of_not_le hlt)

/-- C6: on every reachable model the committed events carry strictly
increasing (normalized) timestamps in commit order — strictly increasing in
the code-point lexicographic order the source compares timestamp strings
with — and an event whose timestamp is less than or equal to the timestamp
of the last committed event is rejected with the ValueError of the
timestamp check, before any side effect (the model a caller observes is
unchanged). -/
theorem monotonic_time (m : OCED) (hm : Reachable m) :
    List.Pairwise (fun a b => strLt a b = true) (m.event.map EventRow.event_time) ∧
    ∀ (e : Event) (h : m.event ≠ []),
      strLe e.event_time (m.event.getLast h).event_time = true →
      insert_event m e = .error .valueError ∧ processEvent m e = m := by
  have hinv : TimeInv m := by
    obtain ⟨es, hwf, rfl⟩ := hm
    exact insertList_inv TimeInv (fun m0 e m1 => TimeInv_preserved m0 e m1) es freshOCED
      ⟨rfl, List.Pairwise.nil⟩
  obtain ⟨h1, h2⟩ := hinv
  constructor
  · rwa [h1] at h2
  · intro e h hle
    have hmem : (m.event.getLast h).event_time ∈ m.event_time := by
      rw [h1]
      exact List.mem_map_of_mem EventRow.event_time (List.getLast_mem h)
    cases hc : colMax m.event_time with
    | none =>
      rw [colMax_eq_none_iff] at hc
      rw [hc] at hmem
      cases hmem
    | some mx =>
      have hxle : strLe e.event_time mx = true :=
        strLe_of_le_of_le hle (colMax_le _ _ hc _ hmem)
      have hpre : precondition m e = .error .valueError := by
        unfold precondition
        rw [hc]
        simp [hxle]
      constructor
      · unfold insert_event
        rw [hpre]
      · unfold processEvent insert_event
        rw [hpre]




theorem monotonic_time_witness :
    insert_event mW6 eW6b = .error .valueError ∧ processEvent mW6 eW6b = mW6 :=
  (monotonic_time mW6 ⟨[eW6a], by decide, rfl⟩).2 eW6b (by decide) (by decide)

/-! ### C8: counter density -/


theorem CounterInv_preserved (m : OCED) (e : Event) (m' : OCED) (hI : CounterInv m)
    (hok : insert_event m e = .ok m') : CounterInv m' := by
  obtain ⟨h1, h2, h3, h4⟩ := hI
  obtain ⟨cs2, inv2, ha, hcs, hev, hevt, hety, hean, hctr, hn1, hn2, hn3, hj1, hj2, hj3,
    htime⟩ := insert_event_ok_elim m m' e hok
  refine ⟨?_, ?_, ?_, ?_⟩
  · rw [hev, hctr, List.range_succ]
    simp [h1]
  · intro r hr
    rw [hctr]
    rcases hj1 r hr with h | h
    · exact Nat.lt_succ_of_lt (h2 r h)
    · rw [h]; exact Nat.lt_succ_self _
  · intro r hr
    rw [hctr]
    rcases hj2 r hr with h | h
    · exact Nat.lt_succ_of_lt (h3 r h)
    · rw [h]; exact Nat.lt_succ_self _
  · intro r hr
    rw [hctr]
    rcases hj3 r hr with h | h
    · exact Nat.lt_succ_of_lt (h4 r h)
    · rw [h]; exact Nat.lt_succ_self _

theorem countSuccess_cons (m0 : OCED) (e : Event) (rest : List Event) :
    countSuccess m0 (e :: rest) =
      match insert_event m0 e with
      | .ok m2 => countSuccess m2 rest + 1
      | .error _ => countSuccess m0 rest := rfl

theorem insertList_counter (es : List Event) :
    ∀ m0 : OCED, (insertList m0 es).event_counter = m0.event_counter + countSuccess m0 es := by
  induction es with
  | nil => intro m0; simp [insertList, countSuccess]
  | cons e rest ih =>
    intro m0
    rw [show insertList m0 (e :: rest) = insertList (processEvent m0 e) rest from rfl]
    cases he : insert_event m0 e with
    | ok m2 =>
      obtain ⟨cs2, inv2, ha, hcs, hev, hevt, hety, hean, hctr, hrest⟩ :=
        insert_event_ok_elim m0 m2 e he
      rw [show processEvent m0 e = m2 by unfold processEvent; rw [he]]
      rw [ih m2, hctr]
      simp only [countSuccess_cons, he]
      ring
    | error err =>
      rw [show processEvent m0 e = m0 by unfold processEvent; rw [he]]
      rw [ih m0]
      simp only [countSuccess_cons, he]

/-- C8: starting from a fresh model, after any call sequence the event
counter equals the number of successful insert_event calls, the event-table
ids are exactly 0..N-1 in commit order, and an event id appears in the
event table or any of the three junction tables exactly when it is one of
the integers 0..N-1. -/
theorem counter_density (es : List Event) :
    (insertList freshOCED es).event_counter = countSuccess freshOCED es ∧
    (insertList freshOCED es).event.map EventRow.event_id =
      List.range (insertList freshOCED es).event_counter ∧
    ∀ k : Nat,
      ((∃ r ∈ (insertList freshOCED es).event, r.event_id = k) ∨
       (∃ r ∈ (insertList freshOCED es).event_x_object, r.event_id = k) ∨
       (∃ r ∈ (insertList freshOCED es).event_x_object_relation, r.event_id = k) ∨
       (∃ r ∈ (insertList freshOCED es).event_x_object_attribute_value, r.event_id = k)) ↔
      k < (insertList freshOCED es).event_counter := by
  have hinv : CounterInv (insertList freshOCED es) :=
    insertList_inv CounterInv CounterInv_preserved es freshOCED
      ⟨by simp [freshOCED], by simp [freshOCED], by simp [freshOCED], by simp [freshOCED]⟩
  obtain ⟨h1, h2, h3, h4⟩ := hinv
  refine ⟨?_, h1, ?_⟩
  · have := insertList_counter es freshOCED
    simpa [freshOCED] using this
  · intro k
    constructor
    · rintro (⟨r, hr, rfl⟩ | ⟨r, hr, rfl⟩ | ⟨r, hr, rfl⟩ | ⟨r, hr, rfl⟩)
      · have hmem : r.event_id ∈ (insertList freshOCED es).event.map EventRow.event_id :=
          List.mem_map_of_mem EventRow.event_id hr
        rw [h1] at hmem
        exact List.mem_range.mp hmem
      · exact h2 r hr
      · exact h3 r hr
      · exact h4 r hr
    · intro hk
      left
      have hmem : k ∈ List.range (insertList freshOCED es).event_counter :=
        List.mem_range.mpr hk
      rw [← h1] at hmem
      obtain ⟨r, hr, hre⟩ := List.mem_map.mp hmem
      exact ⟨r, hr, hre⟩

theorem counter_density_witness :
    mW4.event_counter = countSuccess freshOCED [eW4a, eW4b, eW4c] ∧
    mW4.event.map EventRow.event_id = List.range mW4.event_counter := by
  have h := counter_density [eW4a, eW4b, eW4c]
  exact ⟨h.1, h.2.1⟩

/-! ### C10: lookup-table deduplication -/

theorem nodup_append_filter (l names : List String) (h1 : l.Nodup) (h2 : names.Nodup) :
    (l ++ names.filter (fun n => n ∉ l)).Nodup := by
  rw [List.nodup_append]
  refine ⟨h1, List.Nodup.filter _ h2, ?_⟩
  intro a ha hb
  have := List.of_mem_filter hb
  simp at this
  exact this ha


theorem LookupInv_preserved (m : OCED) (e : Event) (m' : OCED) (hwf : e.WF)
    (hI : LookupInv m) (hok : insert_event m e = .ok m') : LookupInv m' := by
  obtain ⟨i1, i2, i3, i4, i5⟩ := hI
  obtain ⟨cs2, inv2, ha, hcs, hev, hevt, hety, hean, hctr, hn1, hn2, hn3, hj1, hj2, hj3,
    htime⟩ := insert_event_ok_elim m m' e hok
  refine ⟨?_, ?_, hn1 i3, hn2 i4, hn3 i5⟩
  · rw [hety]
    exact insertUnique_nodup _ _ i1
  · rw [hean]
    exact nodup_append_filter _ _ i2 hwf

/-- Invariant preservation over call sequences of well-formed events. -/
theorem insertList_inv_wf (P : OCED → Prop)
    (hstep : ∀ m e m', e.WF → P m → insert_event m e = .ok m' → P m') :
    ∀ (es : List Event), (∀ e ∈ es, e.WF) → ∀ (m0 : OCED), P m0 → P (insertList m0 es) := by
  intro es
  induction es with
  | nil => intro _ m0 h; exact h
  | cons e rest ih =>
    intro hwf m0 h
    rw [show insertList m0 (e :: rest) = insertList (processEvent m0 e) rest from rfl]
    refine ih (fun x hx => hwf x (List.mem_cons_of_mem _ hx)) _ ?_
    unfold processEvent
    cases he : insert_event m0 e with
    | ok m2 => exact hstep m0 e m2 (hwf e (List.mem_cons_self _ _)) h he
    | error err => exact h

/-- C10: after any sequence of insert_event calls on a fresh model, each
value appears at most once in each of the lookup tables event_type,
event_attribute_name, object_type, object_relation_type and
object_attribute_name — every insert into these tables is guarded by a
membership check. -/
theorem lookup_tables_dedup (m : OCED) (hm : Reachable m) :
    m.event_type.Nodup ∧ m.event_attribute_name.Nodup ∧ m.object_type.Nodup ∧
    m.object_relation_type.Nodup ∧ m.object_attribute_name.Nodup := by
  obtain ⟨es, hwf, rfl⟩ := hm
  exact insertList_inv_wf LookupInv LookupInv_preserved es hwf freshOCED
    ⟨List.nodup_nil, List.nodup_nil, List.nodup_nil, List.nodup_nil, List.nodup_nil⟩

theorem lookup_tables_dedup_witness :
    mW6.event_type.Nodup ∧ mW6.event_attribute_name.Nodup ∧ mW6.object_type.Nodup ∧
    mW6.object_relation_type.Nodup ∧ mW6.object_attribute_name.Nodup :=
  lookup_tables_dedup mW6 ⟨[eW6a], by decide, rfl⟩

/-! ### C4: ownership-existency -/


theorem lookup_dmodify_pres (objs : List (String × ObjectInfo)) (k : String)
    (g : ObjectInfo → ObjectInfo)
    (hg1 : ∀ o, (g o).existency = o.existency)
    (hg2 : ∀ o rid, rid ∈ o.object_relation_ids → rid ∈ (g o).object_relation_ids)
    (P : Prop) (x rid : String) (ofr : ObjectInfo)
    (ho : alookup objs x = some ofr) (hm : rid ∈ ofr.object_relation_ids)
    (hi : P → ofr.existency = true) :
    ∃ o2, alookup (dmodify objs k g) x = some o2 ∧ rid ∈ o2.object_relation_ids ∧
      (P → o2.existency = true) := by
  rw [alookup_dmodify]
  by_cases hx : x = k
  · rw [if_pos hx, ho]
    refine ⟨g ofr, rfl, hg2 ofr rid hm, fun hp => ?_⟩
    rw [hg1]
    exact hi hp
  · rw [if_neg hx]
    exact ⟨ofr, ho, hm, hi⟩

theorem RelInv_step (q : Qualifier) (cs : CurrentState) (inv : InvolvedIds)
    (cs2 : CurrentState) (inv2 : InvolvedIds) (hI : RelInv cs)
    (h : update_current_state q cs inv = .ok (cs2, inv2)) : RelInv cs2 := by
  cases q with
  | create_object oid ty =>
    simp only [update_current_state] at h
    cases hfree : (alookup cs.object oid).isSome with
    | true => rw [hfree] at h; simp at h
    | false =>
      rw [hfree] at h
      simp only [Bool.false_eq_true, if_false, Except.ok.injEq, Prod.mk.injEq] at h
      obtain ⟨h1, h2⟩ := h
      subst h1
      intro rid r hr
      obtain ⟨⟨ofr, ho, hm, hi⟩, ⟨ot, ho2, hm2, hi2⟩⟩ := hI rid r hr
      have hnone : alookup cs.object oid = none := by
        cases hx : alookup cs.object oid with
        | none => rfl
        | some w => rw [hx] at hfree; simp at hfree
      constructor
      · refine ⟨ofr, ?_, hm, hi⟩
        rw [alookup_dset]
        by_cases hx : r.from_object_id = oid
        · rw [hx] at ho; rw [ho] at hnone; cases hnone
        · rw [if_neg hx]; exact ho
      · refine ⟨ot, ?_, hm2, hi2⟩
        rw [alookup_dset]
        by_cases hx : r.to_object_id = oid
        · rw [hx] at ho2; rw [ho2] at hnone; cases hnone
        · rw [if_neg hx]; exact ho2
  | create_object_relation rid0 f t ty =>
    simp only [update_current_state] at h
    cases hfree : (alookup cs.object_relation rid0).isSome with
    | true => rw [hfree] at h; simp at h
    | false =>
      rw [hfree] at h
      simp only [Bool.false_eq_true, if_false] at h
      cases ht : alookup cs.object t with
      | none => rw [ht] at h; simp at h
      | some ot =>
        rw [ht] at h
        by_cases hte : ot.existency = false
        · simp [hte] at h
        · simp only [hte, if_false, Bool.true_eq_false] at h
          cases hf : alookup cs.object f with
          | none => rw [hf] at h; simp at h
          | some ofr =>
            rw [hf] at h
            by_cases hfe : ofr.existency = false
            · simp [hfe] at h
            · simp only [hfe, if_false, Bool.true_eq_false, Except.ok.injEq,
                Prod.mk.injEq] at h
              obtain ⟨h1, h2⟩ := h
              subst h1
              have hOT : ot.existency = true := by
                cases hx : ot.existency
                · exact absurd hx hte
                · rfl
              have hOF : ofr.existency = true := by
                cases hx : ofr.existency
                · exact absurd hx hfe
                · rfl
              intro rid r hr
              rw [alookup_dset] at hr
              by_cases hrid : rid = rid0
              · rw [if_pos hrid] at hr
                obtain rfl : r = ⟨ty, true, f, t⟩ := by
                  injection hr with hx
                  exact hx.symm
                subst hrid
                have hinner : alookup (dmodify cs.object f
                    (fun o => { o with object_relation_ids := o.object_relation_ids ++ [rid] })) f =
                    some { ofr with object_relation_ids := ofr.object_relation_ids ++ [rid] } := by
                  rw [alookup_dmodify, if_pos rfl, hf]
                  rfl
                dsimp only
                constructor
                · by_cases hft : f = t
                  · subst hft
                    refine ⟨{ ofr with object_relation_ids :=
                        ofr.object_relation_ids ++ [rid] ++ [rid] }, ?_, ?_, fun _ => hOF⟩
                    · rw [alookup_dmodify, if_pos rfl, hinner]
                      rfl
                    · simp
                  · refine ⟨{ ofr with object_relation_ids :=
                        ofr.object_relation_ids ++ [rid] }, ?_, ?_, fun _ => hOF⟩
                    · rw [alookup_dmodify, if_neg hft, hinner]
                    · simp
                · by_cases htf : t = f
                  · subst htf
                    obtain rfl : ot = ofr := by
                      rw [ht] at hf
                      injection hf
                    refine ⟨{ ot with object_relation_ids :=
                        ot.object_relation_ids ++ [rid] ++ [rid] }, ?_, ?_, fun _ => hOF⟩
                    · rw [alookup_dmodify, if_pos rfl, hinner]
                      rfl
                    · simp
                  · refine ⟨{ ot with object_relation_ids :=
                        ot.object_relation_ids ++ [rid] }, ?_, ?_, fun _ => hOT⟩
                    · rw [alookup_dmodify, if_pos rfl]
                      rw [alookup_dmodify, if_neg htf, ht]
                      rfl
                    · simp
              · rw [if_neg hrid] at hr
                obtain ⟨⟨o1, ho1, hm1, hi1⟩, ⟨o2, ho2, hm2, hi2⟩⟩ := hI rid r hr
                constructor
                · obtain ⟨oA, hA1, hA2, hA3⟩ := lookup_dmodify_pres cs.object f
                    (fun o => { o with
                      object_relation_ids := o.object_relation_ids ++ [rid0] })
                    (fun o => rfl) (fun o x hx => List.mem_append_left _ hx)
                    (r.existency = true) _ _ o1 ho1 hm1 hi1
                  exact lookup_dmodify_pres _ t
                    (fun o => { o with
                      object_relation_ids := o.object_relation_ids ++ [rid0] })
                    (fun o => rfl) (fun o x hx => List.mem_append_left _ hx)
                    (r.existency = true) _ _ oA hA1 hA2 hA3
                · obtain ⟨oA, hA1, hA2, hA3⟩ := lookup_dmodify_pres cs.object f
                    (fun o => { o with
                      object_relation_ids := o.object_relation_ids ++ [rid0] })
                    (fun o => rfl) (fun o x hx => List.mem_append_left _ hx)
                    (r.existency = true) _ _ o2 ho2 hm2 hi2
                  exact lookup_dmodify_pres _ t
                    (fun o => { o with
                      object_relation_ids := o.object_relation_ids ++ [rid0] })
                    (fun o => rfl) (fun o x hx => List.mem_append_left _ hx)
                    (r.existency = true) _ _ oA hA1 hA2 hA3
  | create_object_attribute_value vid oid nm vl =>
    simp only [update_current_state] at h
    cases hfree : (alookup cs.object_attribute_value vid).isSome with
    | true => rw [hfree] at h; simp at h
    | false =>
      rw [hfree] at h
      simp only [Bool.false_eq_true, if_false] at h
      cases ho : alookup cs.object oid with
      | none => rw [ho] at h; simp at h
      | some o =>
        rw [ho] at h
        simp only [Except.ok.injEq, Prod.mk.injEq] at h
        obtain ⟨h1, h2⟩ := h
        subst h1
        intro rid r hr
        obtain ⟨⟨o1, ho1, hm1, hi1⟩, ⟨o2, ho2, hm2, hi2⟩⟩ := hI rid r hr
        constructor
        · exact lookup_dmodify_pres cs.object oid
            (fun o => { o with
              object_attribute_value_ids := o.object_attribute_value_ids ++ [vid] })
            (fun x => rfl) (fun x y hy => hy) (r.existency = true) _ _ o1 ho1 hm1 hi1
        · exact lookup_dmodify_pres cs.object oid
            (fun o => { o with
              object_attribute_value_ids := o.object_attribute_value_ids ++ [vid] })
            (fun x => rfl) (fun x y hy => hy) (r.existency = true) _ _ o2 ho2 hm2 hi2
  | delete_object oid =>
    simp only [update_current_state] at h
    cases ho : alookup cs.object oid with
    | none => rw [ho] at h; simp at h
    | some o =>
      rw [ho] at h
      by_cases hoe : o.existency = false
      · simp [hoe] at h
      · simp only [hoe, if_false, Bool.true_eq_false] at h
        cases hcr : cascadeRelations o.object_relation_ids cs.object_relation
            inv.object_relation with
        | error a => rw [hcr] at h; simp at h
        | ok pr =>
          obtain ⟨rels2, invR2⟩ := pr
          rw [hcr] at h
          cases hcv : cascadeAttrValues o.object_attribute_value_ids
              cs.object_attribute_value inv.object_attribute_value with
          | error a => rw [hcv] at h; simp at h
          | ok pv =>
            obtain ⟨vals2, invV2⟩ := pv
            rw [hcv] at h
            simp only [Except.ok.injEq, Prod.mk.injEq] at h
            obtain ⟨h1, h2⟩ := h
            subst h1
            intro rid r2 hr2
            rw [cascadeRelations_lookup _ _ _ _ _ hcr] at hr2
            cases hrold : alookup cs.object_relation rid with
            | none => rw [hrold] at hr2; simp at hr2
            | some r =>
              rw [hrold] at hr2
              simp only [Option.map_some', Option.some.injEq] at hr2
              obtain ⟨⟨o1, ho1, hm1, hi1⟩, ⟨o2, ho2, hm2, hi2⟩⟩ := hI rid r hrold
              have hfrom2 : r2.from_object_id = r.from_object_id := by
                rw [← hr2]
                by_cases hmem : rid ∈ o.object_relation_ids <;> simp [hmem]
              have hto2 : r2.to_object_id = r.to_object_id := by
                rw [← hr2]
                by_cases hmem : rid ∈ o.object_relation_ids <;> simp [hmem]
              have hdead : rid ∈ o.object_relation_ids → r2.existency = false := by
                intro hmem
                rw [← hr2]
                simp [hmem]
              constructor
              · rw [hfrom2, alookup_dmodify]
                by_cases hx : r.from_object_id = oid
                · rw [if_pos hx]
                  rw [hx] at ho1
                  rw [ho1] at ho
                  obtain rfl : o1 = o := by injection ho
                  refine ⟨_, by rw [hx, ho1]; rfl, by simpa using hm1, fun hp => ?_⟩
                  exact absurd hp (by simp [hdead hm1])
                · rw [if_neg hx]
                  refine ⟨o1, ho1, hm1, fun hp => hi1 ?_⟩
                  by_cases hmem : rid ∈ o.object_relation_ids
                  · exact absurd hp (by simp [hdead hmem])
                  · rw [← hr2] at hp
                    simpa [hmem] using hp
              · rw [hto2, alookup_dmodify]
                by_cases hx : r.to_object_id = oid
                · rw [if_pos hx]
                  rw [hx] at ho2
                  rw [ho2] at ho
                  obtain rfl : o2 = o := by injection ho
                  refine ⟨_, by rw [hx, ho2]; rfl, by simpa using hm2, fun hp => ?_⟩
                  exact absurd hp (by simp [hdead hm2])
                · rw [if_neg hx]
                  refine ⟨o2, ho2, hm2, fun hp => hi2 ?_⟩
                  by_cases hmem : rid ∈ o.object_relation_ids
                  · exact absurd hp (by simp [hdead hmem])
                  · rw [← hr2] at hp
                    simpa [hmem] using hp
  | delete_object_relation rid0 =>
    simp only [update_current_state] at h
    cases ho : alookup cs.object_relation rid0 with
    | none => rw [ho] at h; simp at h
    | some r0 =>
      rw [ho] at h
      by_cases hoe : r0.existency = false
      · simp [hoe] at h
      · simp only [hoe, if_false, Bool.true_eq_false, Except.ok.injEq, Prod.mk.injEq] at h
        obtain ⟨h1, h2⟩ := h
        subst h1
        intro rid r2 hr2
        rw [alookup_dmodify] at hr2
        by_cases hx : rid = rid0
        · rw [if_pos hx, hx, ho] at hr2
          simp only [Option.map_some', Option.some.injEq] at hr2
          obtain ⟨⟨o1, ho1, hm1, hi1⟩, ⟨o2, ho2, hm2, hi2⟩⟩ := hI rid0 r0 ho
          subst hx
          constructor
          · refine ⟨o1, by rw [← hr2]; exact ho1, hm1, fun hp => ?_⟩
            rw [← hr2] at hp
            simp at hp
          · refine ⟨o2, by rw [← hr2]; exact ho2, hm2, fun hp => ?_⟩
            rw [← hr2] at hp
            simp at hp
        · rw [if_neg hx] at hr2
          exact hI rid r2 hr2
  | delete_object_attribute_value vid =>
    simp only [update_current_state] at h
    cases ho : alookup cs.object_attribute_value vid with
    | none => rw [ho] at h; simp at h
    | some v =>
      rw [ho] at h
      by_cases hoe : v.existency = false
      · simp [hoe] at h
      · simp only [hoe, if_false, Bool.true_eq_false, Except.ok.injEq, Prod.mk.injEq] at h
        obtain ⟨h1, h2⟩ := h
        subst h1
        intro rid r hr
        exact hI rid r hr
  | modify_object oid newty =>
    simp only [update_current_state] at h
    cases ho : alookup cs.object oid with
    | none => rw [ho] at h; simp at h
    | some o =>
      rw [ho] at h
      by_cases hoe : o.existency = false
      · simp [hoe] at h
      · simp only [hoe, if_false, Bool.true_eq_false] at h
        by_cases hty : o.type = newty
        · simp [hty] at h
        · simp only [hty, if_false, Except.ok.injEq, Prod.mk.injEq] at h
          obtain ⟨h1, h2⟩ := h
          subst h1
          intro rid r hr
          obtain ⟨⟨o1, ho1, hm1, hi1⟩, ⟨o2, ho2, hm2, hi2⟩⟩ := hI rid r hr
          constructor
          · exact lookup_dmodify_pres cs.object oid
              (fun x => { x with type := newty })
              (fun x => rfl) (fun x y hy => hy) (r.existency = true) _ _ o1 ho1 hm1 hi1
          · exact lookup_dmodify_pres cs.object oid
              (fun x => { x with type := newty })
              (fun x => rfl) (fun x y hy => hy) (r.existency = true) _ _ o2 ho2 hm2 hi2
  | modify_object_relation rid0 newty =>
    simp only [update_current_state] at h
    cases ho : alookup cs.object_relation rid0 with
    | none => rw [ho] at h; simp at h
    | some r0 =>
      rw [ho] at h
      by_cases hoe : r0.existency = false
      · simp [hoe] at h
      · simp only [hoe, if_false, Bool.true_eq_false] at h
        by_cases hty : r0.type = newty
        · simp [hty] at h
        · simp only [hty, if_false, Except.ok.injEq, Prod.mk.injEq] at h
          obtain ⟨h1, h2⟩ := h
          subst h1
          intro rid r2 hr2
          rw [alookup_dmodify] at hr2
          by_cases hx : rid = rid0
          · rw [if_pos hx, hx, ho] at hr2
            simp only [Option.map_some', Option.some.injEq] at hr2
            obtain ⟨⟨o1, ho1, hm1, hi1⟩, ⟨o2, ho2, hm2, hi2⟩⟩ := hI rid0 r0 ho
            subst hx
            constructor
            · refine ⟨o1, by rw [← hr2]; exact ho1, hm1, fun hp => hi1 ?_⟩
              rw [← hr2] at hp
              simpa using hp
            · refine ⟨o2, by rw [← hr2]; exact ho2, hm2, fun hp => hi2 ?_⟩
              rw [← hr2] at hp
              simpa using hp
          · rw [if_neg hx] at hr2
            exact hI rid r2 hr2
  | modify_object_attribute_value vid newvl =>
    simp only [update_current_state] at h
    cases ho : alookup cs.object_attribute_value vid with
    | none => rw [ho] at h; simp at h
    | some v =>
      rw [ho] at h
      by_cases hoe : v.existency = false
      · simp [hoe] at h
      · simp only [hoe, if_false, Bool.true_eq_false] at h
        by_cases hty : v.value = newvl
        · simp [hty] at h
        · simp only [hty, if_false, Except.ok.injEq, Prod.mk.injEq] at h
          obtain ⟨h1, h2⟩ := h
          subst h1
          intro rid r hr
          exact hI rid r hr
  | involve_object oid =>
    simp only [update_current_state] at h
    cases ho : alookup cs.object oid with
    | none => rw [ho] at h; simp at h
    | some o =>
      rw [ho] at h
      by_cases hoe : o.existency = false
      · simp [hoe] at h
      · simp only [hoe, if_false, Bool.true_eq_false] at h
        by_cases hm : oid ∈ inv.object
        · simp [hm] at h
        · simp only [hm, if_false, Except.ok.injEq, Prod.mk.injEq] at h
          obtain ⟨h1, h2⟩ := h
          subst h1
          exact hI
  | involve_object_relation rid0 =>
    simp only [update_current_state] at h
    cases ho : alookup cs.object_relation rid0 with
    | none => rw [ho] at h; simp at h
    | some r0 =>
      rw [ho] at h
      by_cases hoe : r0.existency = false
      · simp [hoe] at h
      · simp only [hoe, if_false, Bool.true_eq_false] at h
        by_cases hm : rid0 ∈ inv.object_relation
        · simp [hm] at h
        · simp only [hm, if_false, Except.ok.injEq, Prod.mk.injEq] at h
          obtain ⟨h1, h2⟩ := h
          subst h1
          exact hI
  | involve_object_attribute_value vid =>
    simp only [update_current_state] at h
    cases ho : alookup cs.object_attribute_value vid with
    | none => rw [ho] at h; simp at h
    | some v =>
      rw [ho] at h
      by_cases hoe : v.existency = false
      · simp [hoe] at h
      · simp only [hoe, if_false, Bool.true_eq_false] at h
        by_cases hm : vid ∈ inv.object_attribute_value
        · simp [hm] at h
        · simp only [hm, if_false, Except.ok.injEq, Prod.mk.injEq] at h
          obtain ⟨h1, h2⟩ := h
          subst h1
          exact hI

theorem applyQualifiers_RelInv (qs : List Qualifier) :
    ∀ (cs : CurrentState) (inv : InvolvedIds) (cs2 : CurrentState) (inv2 : InvolvedIds),
      RelInv cs → applyQualifiers qs cs inv = .ok (cs2, inv2) → RelInv cs2 := by
  induction qs with
  | nil =>
    intro cs inv cs2 inv2 hI h
    simp [applyQualifiers] at h
    rw [← h.1]
    exact hI
  | cons q rest ih =>
    intro cs inv cs2 inv2 hI h
    simp only [applyQualifiers] at h
    cases hu : update_current_state q cs inv with
    | error e => rw [hu] at h; simp at h
    | ok p =>
      obtain ⟨csx, invx⟩ := p
      rw [hu] at h
      exact ih csx invx cs2 inv2 (RelInv_step q cs inv csx invx hI hu) h

theorem RelInv_model_preserved (m : OCED) (e : Event) (m' : OCED)
    (hI : RelInv m.current_state) (hok : insert_event m e = .ok m') :
    RelInv m'.current_state := by
  obtain ⟨cs2, inv2, ha, hcs, hrest⟩ := insert_event_ok_elim m m' e hok
  rw [hcs]
  exact applyQualifiers_RelInv e.qualifiers m.current_state emptyInvolved cs2 inv2 hI ha





/-- C4 counterexample: the ownership-existency claim fails for attribute
values.  The model mW4 is reachable by three successful insert_event calls
from a fresh model, yet its current state holds attribute value v with
existency true whose owner object o has existency false —
create_object_attribute_value never checks the existency of the owner
(source lines 945-956 check only that the value id is unused). -/
theorem ownership_existency_cex :
    Reachable mW4 ∧
    alookup mW4.current_state.object_attribute_value "v" =
      some ⟨"n", "x", true, "o"⟩ ∧
    alookup mW4.current_state.object "o" = some ⟨"T", false, [], ["v"]⟩ :=
  ⟨⟨[eW4a, eW4b, eW4c], by decide, rfl⟩, by decide, by decide⟩

/-- C4 amended: in every model state reachable by insert_event calls from a
fresh model, a RELATION is live only if both its endpoint objects are
present and live; the analogous property for attribute values does not hold
on the code (see ownership_existency_cex), because
create_object_attribute_value accepts a soft-deleted owner. -/
theorem relation_ownership_existency (m : OCED) (hm : Reachable m) :
    ∀ rid r, alookup m.current_state.object_relation rid = some r → r.existency = true →
      (∃ ofr, alookup m.current_state.object r.from_object_id = some ofr ∧
        ofr.existency = true) ∧
      (∃ ot, alookup m.current_state.object r.to_object_id = some ot ∧
        ot.existency = true) := by
  have hinv : RelInv m.current_state := by
    obtain ⟨es, hwf, rfl⟩ := hm
    refine insertList_inv (fun m0 => RelInv m0.current_state)
      (fun m0 e m1 => RelInv_model_preserved m0 e m1) es freshOCED ?_
    intro rid r hr
    simp [freshOCED, alookup] at hr
  intro rid r hr hex
  obtain ⟨⟨ofr, ho1, hm1, hi1⟩, ⟨ot, ho2, hm2, hi2⟩⟩ := hinv rid r hr
  exact ⟨⟨ofr, ho1, hi1 hex⟩, ⟨ot, ho2, hi2 hex⟩⟩





theorem relation_ownership_existency_witness :
    (∃ ofr, alookup mW4r.current_state.object "o1" = some ofr ∧ ofr.existency = true) ∧
    (∃ ot, alookup mW4r.current_state.object "o2" = some ot ∧ ot.existency = true) :=
  relation_ownership_existency mW4r ⟨[eW4r1, eW4r2, eW4r3], by decide, rfl⟩
    "r" ⟨"R", true, "o1", "o2"⟩ (by decide) rfl

end OCEDSpec
